import Mathlib

/-!
# DlgAnimationRenderer

A shallow embedding of `plugins/extensions/animationrenderer/DlgAnimationRenderer.cpp`
(the "Render Animation" dialog) and proofs about its accessors and slots.

The dialog is a record of widget values.  Every member function of the source
becomes a function on that record; a member function that can run into undefined
behaviour (indexing a `QList` out of range, calling through a null pointer, taking
`first()` of an empty list) returns `Except Fault`.  Frame numbers are C `int`s; the
code only compares and copies them, so they are embedded as `Int`.
-/

set_option autoImplicit false

namespace Krita

/-! ## Qt value types -/

/-- Undefined behaviour the source can reach. -/
inductive Fault where
  | indexOutOfRange
  | nullDereference
  | firstOfEmptyList
  deriving DecidableEq, Repr

/-- Decimal digits of a string read as a natural number (`none` when a character is
not a digit or the string is empty). -/
def parseDigits (cs : List Char) : Option Nat :=
  if cs = [] then none
  else cs.foldl (fun acc c => acc.bind (fun n => if c.isDigit then some (10 * n + (c.toNat - 48)) else none)) (some 0)

/-- `QString::toInt`: surrounding white space is skipped, an optional sign is read, and
anything that is not a decimal `int` gives 0. -/
def qstringToInt (s : String) : Int :=
  let cs := s.trim.data
  let r : Option Int :=
    match cs with
    | '-' :: ds => (parseDigits ds).map (fun n => - (n : Int))
    | '+' :: ds => (parseDigits ds).map (fun n => (n : Int))
    | ds => (parseDigits ds).map (fun n => (n : Int))
  match r with
  | some n => if -2147483648 ≤ n ∧ n ≤ 2147483647 then n else 0
  | none => 0

/-- The three kinds of `QVariant` the dialog stores, and the invalid variant. -/
inductive QVariant where
  | invalid
  | ofString (s : String)
  | ofInt (n : Int)
  | ofBool (b : Bool)
  deriving DecidableEq, Repr

namespace QVariant

def isValid : QVariant → Bool
  | invalid => false
  | _ => true

def toString : QVariant → String
  | invalid => ""
  | ofString s => s
  | ofInt n => ToString.toString n
  | ofBool b => if b then "true" else "false"

def toInt : QVariant → Int
  | invalid => 0
  | ofString s => qstringToInt s
  | ofInt n => n
  | ofBool b => if b then 1 else 0

def toBool : QVariant → Bool
  | invalid => false
  | ofString s => !(s = "" ∨ s = "0" ∨ s.toLower = "false")
  | ofInt n => n ≠ 0
  | ofBool b => b

end QVariant

/-- A `QMap<QString, QVariant>`: `insert` replaces the value of an existing key. -/
abbrev QVariantMap := List (String × QVariant)

def QVariantMap.insert (m : QVariantMap) (key : String) (v : QVariant) : QVariantMap :=
  (key, v) :: m.filter (fun kv => !(kv.1 == key))

def QVariantMap.value (m : QVariantMap) (key : String) : QVariant :=
  (m.lookup key).getD QVariant.invalid

/-- Modelled from the spec: `KisPropertiesConfiguration` (kis_properties_configuration.h is
not part of the sources at hand), the "property bag" exchanged with the caller: a map
from property names to variants, with typed getters that fall back to a default when
the property is not defined. -/
structure KisPropertiesConfiguration where
  properties : QVariantMap
  deriving DecidableEq, Repr

namespace KisPropertiesConfiguration

def empty : KisPropertiesConfiguration := ⟨[]⟩

def setProperty (cfg : KisPropertiesConfiguration) (name : String) (v : QVariant) :
    KisPropertiesConfiguration :=
  ⟨cfg.properties.insert name v⟩

def getProperty (cfg : KisPropertiesConfiguration) (name : String) : QVariant :=
  cfg.properties.value name

def hasProperty (cfg : KisPropertiesConfiguration) (name : String) : Bool :=
  (cfg.getProperty name).isValid

def getString (cfg : KisPropertiesConfiguration) (name : String) (dflt : String) : String :=
  let v := cfg.getProperty name
  if v.isValid then v.toString else dflt

def getInt (cfg : KisPropertiesConfiguration) (name : String) (dflt : Int) : Int :=
  let v := cfg.getProperty name
  if v.isValid then v.toInt else dflt

end KisPropertiesConfiguration

/-- A `KisPropertiesConfigurationSP`; the null pointer is `none`. -/
abbrev KisPropertiesConfigurationSP := Option KisPropertiesConfiguration

/-- Modelled from the spec: `KisConfig` (kis_config.h is not part of the sources at hand),
the "persistent key-value settings store with typed get/set".  The custom FFmpeg path
is one more entry of the same store. -/
structure KisConfig where
  entries : QVariantMap
  deriving DecidableEq, Repr

namespace KisConfig

def ffmpegKey : String := "ffmpegExecutablePath"

def readEntryString (cfg : KisConfig) (key : String) (dflt : String) : String :=
  let v := cfg.entries.value key
  if v.isValid then v.toString else dflt

def readEntryBool (cfg : KisConfig) (key : String) (dflt : Bool) : Bool :=
  let v := cfg.entries.value key
  if v.isValid then v.toBool else dflt

def writeEntryString (cfg : KisConfig) (key : String) (v : String) : KisConfig :=
  ⟨cfg.entries.insert key (QVariant.ofString v)⟩

def writeEntryBool (cfg : KisConfig) (key : String) (v : Bool) : KisConfig :=
  ⟨cfg.entries.insert key (QVariant.ofBool v)⟩

def customFFMpegPath (cfg : KisConfig) : String :=
  cfg.readEntryString ffmpegKey ""

def setCustomFFMpegPath (cfg : KisConfig) (v : String) : KisConfig :=
  cfg.writeEntryString ffmpegKey v

end KisConfig

/-- A `QSpinBox`: the range and the value. -/
structure QSpinBox where
  minimum : Int
  maximum : Int
  value : Int
  deriving DecidableEq, Repr

namespace QSpinBox

/-- `QAbstractSpinBoxPrivate::bound` without wrapping. -/
def bound (s : QSpinBox) (v : Int) : Int :=
  let v1 := if v < s.minimum then s.minimum else v
  if v1 > s.maximum then s.maximum else v1

def setValue (s : QSpinBox) (v : Int) : QSpinBox :=
  { s with value := s.bound v }

/-- `QAbstractSpinBoxPrivate::setRange`: the maximum is never below the minimum and the
value is brought back into the range. -/
def setRange (s : QSpinBox) (lo hi : Int) : QSpinBox :=
  let r : QSpinBox := { s with minimum := lo, maximum := if lo < hi then hi else lo }
  { r with value := r.bound r.value }

def setMinimum (s : QSpinBox) (m : Int) : QSpinBox :=
  s.setRange m (if s.maximum > m then s.maximum else m)

def setMaximum (s : QSpinBox) (m : Int) : QSpinBox :=
  s.setRange (if s.minimum < m then s.minimum else m) m

end QSpinBox

/-- A `QComboBox`: the items (display text and user data), the current index (-1 when
nothing is selected) and the enabled flag. -/
structure QComboBox where
  items : List (String × String)
  currentIndex : Int
  enabled : Bool
  deriving DecidableEq, Repr

namespace QComboBox

def count (c : QComboBox) : Int := c.items.length

/-- `itemData(index)`: invalid outside the items. -/
def itemData (c : QComboBox) (index : Int) : QVariant :=
  if index < 0 then QVariant.invalid
  else match c.items[index.toNat]? with
    | some it => QVariant.ofString it.2
    | none => QVariant.invalid

def currentData (c : QComboBox) : QVariant := c.itemData c.currentIndex

/-- `setCurrentIndex(index)`: an index outside the items clears the selection.  The signal
it emits is `currentIndexChanged`, to which the dialog connects nothing. -/
def setCurrentIndex (c : QComboBox) (index : Int) : QComboBox :=
  { c with currentIndex := if 0 ≤ index ∧ index < c.count then index else -1 }

/-- `addItem(text, userData)`: appended; the first item of an empty box becomes current. -/
def addItem (c : QComboBox) (text : String) (userData : String) : QComboBox :=
  { c with items := c.items ++ [(text, userData)],
           currentIndex := if c.items = [] then 0 else c.currentIndex }

def setEnabled (c : QComboBox) (b : Bool) : QComboBox :=
  { c with enabled := b }

end QComboBox

/-- `QString::split(sep)` on characters: empty parts are kept, so the empty string splits
into one empty part. -/
def splitChars (sep : Char) : List Char → List (List Char)
  | [] => [[]]
  | c :: cs =>
    if c = sep then [] :: splitChars sep cs
    else
      match splitChars sep cs with
      | w :: ws => (c :: w) :: ws
      | [] => [[c]]

def qstringSplit (sep : Char) (s : String) : List String :=
  (splitChars sep s.data).map String.mk

/-- Lexicographic order of `QString::operator<=` on characters. -/
def charsLe : List Char → List Char → Bool
  | [], _ => true
  | _ :: _, [] => false
  | a :: as, b :: bs =>
    if a.toNat < b.toNat then true
    else if b.toNat < a.toNat then false
    else charsLe as bs

/-- `QStringList::sort()`: ascending, case sensitive. -/
def qstringListSort (l : List String) : List String :=
  l.insertionSort (fun a b => charsLe a.data b.data = true)

/-- File name part of a path: what follows the last `/`. -/
def fileNameChars (path : List Char) : List Char :=
  (path.reverse.takeWhile (fun c => c ≠ '/')).reverse

/-- `QFileInfo(path).completeBaseName()` on characters: the file name up to, not including,
its last `.`; the whole file name when it has no `.`. -/
def completeBaseNameChars (path : List Char) : List Char :=
  let file := fileNameChars path
  if '.' ∈ file then ((file.reverse.dropWhile (fun c => c ≠ '.')).drop 1).reverse
  else file

def completeBaseName (path : String) : String :=
  ⟨completeBaseNameChars path.data⟩

/-! ## Collaborators of the dialog -/

/-- Modelled from the spec: `KisTimeRange` (kis_time_range.h is not part of the sources at
hand), a frame span read through `start()` and `end()`. -/
structure KisTimeRange where
  start : Int
  stop : Int
  deriving DecidableEq, Repr

/-- Modelled from the spec: the animation interface of the image held in `m_image`
(kis_image_animation_interface.h is not part of the sources at hand), "a document/image
handle exposing full clip range and current playback range". -/
structure KisImage where
  fullClipRange : KisTimeRange
  playbackRange : KisTimeRange
  deriving DecidableEq, Repr

/-- Modelled from the spec: a `KisConfigWidget` (kis_config_widget.h is not part of the
sources at hand), the "capability-specific configuration sub-widget" an export filter
builds for one format. -/
structure KisConfigWidget where
  owner : String
  mimetype : String
  deriving DecidableEq, Repr

/-- Modelled from the spec: a `KisImportExportFilter` (KisImportExportFilter.h is not part
of the sources at hand): its identity and whether its "configuration-widget factory"
`createConfigurationWidget` returns a widget or null. -/
structure KisImportExportFilter where
  ident : String
  hasConfigurationWidget : Bool
  deriving DecidableEq, Repr

def KisImportExportFilter.createConfigurationWidget (f : KisImportExportFilter) (toMime : String) :
    Option KisConfigWidget :=
  if f.hasConfigurationWidget then some ⟨f.ident, toMime⟩ else none

/-- The object a plugin factory creates. -/
structure PluginObject where
  inheritsFilter : Bool
  filter : KisImportExportFilter
  deriving DecidableEq, Repr

/-- A `KLibFactory`: `create<KisImportExportFilter>(0)` gives an object or null. -/
structure KLibFactory where
  create : Option PluginObject
  deriving DecidableEq, Repr

/-- A `QPluginLoader` returned by the trader: the `X-KDE-Export` entry of its metadata and
the outcome of `qobject_cast<KLibFactory *>(loader->instance())`. -/
structure QPluginLoader where
  xKdeExport : String
  rootFactory : Option KLibFactory
  deriving DecidableEq, Repr

/-- What the dialog asks of the application around it: the document, `QStandardPaths`,
`KisImportExportManager`, `KisMimeDatabase`, `KoJsonTrader` and the file system. -/
structure Host where
  localFile : String
  image : KisImage
  picturesLocation : String
  mimeFilterExport : List String
  descriptionForMimeType : String → String
  suffixesForMimeType : String → List String
  filterForMimeType : String → Option KisImportExportFilter
  animationExporters : List QPluginLoader
  fileExists : String → Bool

/-! ## The dialog -/

/-- Modelled from the spec: the form `WdgAnimaterionRenderer` (its `.ui` file is not part
of the sources at hand), the field values of the form: the values of the widgets the dialog
reads and writes (`KisFileNameRequester` and `QLineEdit` hold a text, `QGroupBox` and
`QCheckBox` a check mark). -/
structure WdgAnimaterionRenderer where
  txtBasename : String
  dirRequester : String
  intStart : QSpinBox
  intEnd : QSpinBox
  sequenceStart : QSpinBox
  cmbMimetype : QComboBox
  cmbRenderType : QComboBox
  videoFilename : String
  chkDeleteSequence : Bool
  ffmpegLocation : String
  grpRender : Bool
  deriving DecidableEq, Repr

/-- The fields of `DlgAnimationRenderer`.  A `QSharedPointer` or `QPointer` that is null
is `none`. -/
structure DlgAnimationRenderer where
  m_image : KisImage
  m_defaultFileName : String
  m_page : WdgAnimaterionRenderer
  m_renderFilters : List (Option KisImportExportFilter)
  m_encoderConfigWidget : Option KisConfigWidget
  m_frameExportConfigWidget : Option KisConfigWidget
  deriving DecidableEq, Repr

/-- `QList::operator[]`: defined only for `0 <= i < size()`. -/
def qlistAt {α : Type} (l : List α) (i : Int) : Except Fault α :=
  if i < 0 then Except.error Fault.indexOutOfRange
  else match l[i.toNat]? with
    | some x => Except.ok x
    | none => Except.error Fault.indexOutOfRange

/-- `QList::first()`: defined only for a non-empty list. -/
def qlistFirst {α : Type} (l : List α) : Except Fault α :=
  match l with
  | x :: _ => Except.ok x
  | [] => Except.error Fault.firstOfEmptyList

/-- The loop `for (i = 0; i < count(); ++i) if (itemData(i).toString() == data) ... break`:
the first index whose user data is `data`. -/
def firstIndexOfData (c : QComboBox) (data : String) : Option Nat :=
  (List.range c.items.length).find? (fun i => (c.itemData (i : Int)).toString = data)

namespace DlgAnimationRenderer

def getSequenceConfiguration (d : DlgAnimationRenderer) : KisPropertiesConfigurationSP :=
  let cfg := KisPropertiesConfiguration.empty
  let cfg := cfg.setProperty "basename" (QVariant.ofString d.m_page.txtBasename)
  let cfg := cfg.setProperty "directory" (QVariant.ofString d.m_page.dirRequester)
  let cfg := cfg.setProperty "first_frame" (QVariant.ofInt d.m_page.intStart.value)
  let cfg := cfg.setProperty "last_frame" (QVariant.ofInt d.m_page.intEnd.value)
  let cfg := cfg.setProperty "sequence_start" (QVariant.ofInt d.m_page.sequenceStart.value)
  let cfg := cfg.setProperty "mimetype" (QVariant.ofString d.m_page.cmbMimetype.currentData.toString)
  some cfg

def sequenceMimeTypeSelected (h : Host) (d : DlgAnimationRenderer) (index : Int) :
    DlgAnimationRenderer :=
  let d := { d with m_frameExportConfigWidget := none }
  let mimetype := (d.m_page.cmbMimetype.itemData index).toString
  match h.filterForMimeType mimetype with
  | some filter =>
    { d with m_frameExportConfigWidget := filter.createConfigurationWidget mimetype }
  | none => d

def setSequenceConfiguration (h : Host) (d : DlgAnimationRenderer)
    (cfg : KisPropertiesConfiguration) : DlgAnimationRenderer :=
  let p := d.m_page
  let p := { p with txtBasename := cfg.getString "basename" "frame" }
  let p := { p with dirRequester := cfg.getString "directory" h.picturesLocation }
  let p := { p with intStart := p.intStart.setValue (cfg.getInt "first_frame" d.m_image.playbackRange.start) }
  let p := { p with intEnd := p.intEnd.setValue (cfg.getInt "last_frame" d.m_image.playbackRange.stop) }
  let p := { p with sequenceStart := p.sequenceStart.setValue (cfg.getInt "sequence_start" d.m_image.playbackRange.start) }
  let d := { d with m_page := p }
  let mimetype := cfg.getString "mimetype" ""
  match firstIndexOfData d.m_page.cmbMimetype mimetype with
  | some i =>
    let d := { d with m_page := { d.m_page with cmbMimetype := d.m_page.cmbMimetype.setCurrentIndex i } }
    sequenceMimeTypeSelected h d i
  | none => d

def renderToVideo (d : DlgAnimationRenderer) : Bool :=
  d.m_page.grpRender

def getVideoConfiguration (d : DlgAnimationRenderer) : KisPropertiesConfigurationSP :=
  if !d.m_page.grpRender then none
  else
    let cfg := KisPropertiesConfiguration.empty
    let cfg := cfg.setProperty "filename" (QVariant.ofString d.m_page.videoFilename)
    let cfg := cfg.setProperty "delete_sequence" (QVariant.ofBool d.m_page.chkDeleteSequence)
    some cfg

def getEncoderConfiguration (d : DlgAnimationRenderer) : KisPropertiesConfigurationSP :=
  if !d.m_page.grpRender then none
  else
    let cfg := KisPropertiesConfiguration.empty
    let cfg := cfg.setProperty "mimetype" (QVariant.ofString d.m_page.cmbRenderType.currentData.toString)
    some cfg

/-- The result is the shared pointer held in the list (possibly null), or a fault when the
subscript is outside the list. -/
def encoderFilter (d : DlgAnimationRenderer) : Except Fault (Option KisImportExportFilter) :=
  if d.m_page.cmbRenderType.currentIndex < (d.m_renderFilters.length : Int) then
    qlistAt d.m_renderFilters d.m_page.cmbRenderType.currentIndex
  else Except.ok none

def selectRenderType (h : Host) (d : DlgAnimationRenderer) (index : Int) :
    Except Fault DlgAnimationRenderer :=
  let d := { d with m_encoderConfigWidget := none }
  if index ≥ (d.m_renderFilters.length : Int) then Except.ok d
  else
    match qlistAt d.m_renderFilters index with
    | Except.error e => Except.error e
    | Except.ok filter =>
      let mimetype := (d.m_page.cmbRenderType.itemData index).toString
      let fileName := d.m_page.videoFilename
      let d :=
        if fileName ≠ "" ∧ completeBaseName fileName ≠ d.m_defaultFileName then
          { d with m_defaultFileName := completeBaseName fileName }
        else d
      match qlistFirst (h.suffixesForMimeType mimetype) with
      | Except.error e => Except.error e
      | Except.ok suffix =>
        let d := { d with m_page := { d.m_page with videoFilename := d.m_defaultFileName ++ "." ++ suffix } }
        match filter with
        | some f => Except.ok { d with m_encoderConfigWidget := f.createConfigurationWidget mimetype }
        | none => Except.ok d

def toggleSequenceType (d : DlgAnimationRenderer) (toggle : Bool) : DlgAnimationRenderer :=
  let c := d.m_page.cmbMimetype.setEnabled (!toggle)
  let c :=
    match firstIndexOfData c "image/png" with
    | some i => c.setCurrentIndex i
    | none => c
  { d with m_page := { d.m_page with cmbMimetype := c } }

def ffmpegLocationChanged (cfg : KisConfig) (s : String) : KisConfig :=
  cfg.setCustomFFMpegPath s

/-- Modelled from the spec: the `KoDialog::ButtonCode` values of the confirm and the cancel
button (KoDialog.h is not part of the sources at hand; the code only compares with
`Ok`). -/
def KoDialog_Ok : Int := 0x00000004

def KoDialog_Cancel : Int := 0x00000020

/-- The three `QMessageBox::warning` texts of `slotButtonClicked`, in source order. -/
inductive Warning where
  | enterFileName
  | ffmpegUnknown
  | ffmpegInvalid
  deriving DecidableEq, Repr

/-- What a click does: the warning shown, if any, and the button handed on to
`KoDialog::slotButtonClicked`, if any. -/
structure ClickOutcome where
  warning : Option Warning
  forwarded : Option Int
  deriving DecidableEq, Repr

def slotButtonClicked (h : Host) (d : DlgAnimationRenderer) (button : Int) : ClickOutcome :=
  if button = KoDialog_Ok ∧ d.m_page.grpRender = true then
    let ffmpeg := d.m_page.ffmpegLocation
    if d.m_page.videoFilename = "" then
      ⟨some Warning.enterFileName, none⟩
    else if ffmpeg = "" then
      ⟨some Warning.ffmpegUnknown, none⟩
    else if h.fileExists ffmpeg = false then
      ⟨some Warning.ffmpegInvalid, none⟩
    else
      ⟨none, some button⟩
  else
    ⟨none, some button⟩

/-- Body of the loop over `KisImportExportManager::mimeFilter(Export)` (lines 77 to 87). -/
def addExportMime (h : Host) (c : QComboBox) (mime : String) : QComboBox :=
  let description := h.descriptionForMimeType mime
  let description := if description = "" then mime else description
  let c := c.addItem description mime
  if mime = "image/png" then c.setCurrentIndex (c.count - 1) else c

/-- Body of the inner loop of the plugin scan (lines 97 to 125), on the pair of
`m_renderFilters` and `cmbRenderType`. -/
def scanMime (h : Host) (loader : QPluginLoader)
    (acc : List (Option KisImportExportFilter) × QComboBox) (mime : String) :
    List (Option KisImportExportFilter) × QComboBox :=
  match loader.rootFactory with
  | none => acc
  | some factory =>
    match factory.create with
    | none => acc
    | some obj =>
      if obj.inheritsFilter = false then acc
      else
        let filter : Option KisImportExportFilter := some obj.filter
        if filter.isNone then acc
        else
          let description := h.descriptionForMimeType mime
          let description := if description = "" then mime else description
          (acc.1 ++ [filter], acc.2.addItem description mime)

/-- Mime types a loader advertises: its `X-KDE-Export` entry split at commas. -/
def advertisedMimes (loader : QPluginLoader) : List String :=
  qstringSplit ',' loader.xKdeExport

/-- Body of the outer loop of the plugin scan (lines 94 to 126). -/
def scanLoader (h : Host) (acc : List (Option KisImportExportFilter) × QComboBox)
    (loader : QPluginLoader) : List (Option KisImportExportFilter) × QComboBox :=
  (advertisedMimes loader).foldl (scanMime h loader) acc

def scanPlugins (h : Host) (acc : List (Option KisImportExportFilter) × QComboBox) :
    List (Option KisImportExportFilter) × QComboBox :=
  h.animationExporters.foldl (scanLoader h) acc

/-- `grpRender->setChecked(b)` once `toggled(bool)` is connected to `toggleSequenceType`:
the signal is emitted only when the check mark changes. -/
def grpRenderSetChecked (d : DlgAnimationRenderer) (b : Bool) : DlgAnimationRenderer :=
  if b ≠ d.m_page.grpRender then
    toggleSequenceType { d with m_page := { d.m_page with grpRender := b } } b
  else d

/-- The constructor.  `ui` is the form as `WdgAnimaterionRenderer` builds it (the `.ui`
file is not part of the sources at hand); `cfg` is the settings store it reads. -/
def construct (h : Host) (cfg : KisConfig) (ui : WdgAnimaterionRenderer) :
    Except Fault DlgAnimationRenderer :=
  let defaultFileName := completeBaseName h.localFile
  let lastLocation := cfg.readEntryString "last_sequence_export_location" h.picturesLocation
  let p := { ui with dirRequester := lastLocation }
  let full := h.image.fullClipRange
  let play := h.image.playbackRange
  let p := { p with intStart := ((p.intStart.setMinimum full.start).setMaximum full.stop).setValue play.start }
  let p := { p with intEnd := ((p.intEnd.setMinimum full.start).setMaximum full.stop).setValue play.stop }
  let mimes := qstringListSort h.mimeFilterExport
  let p := { p with cmbMimetype := mimes.foldl (addExportMime h) p.cmbMimetype }
  let scanned := scanPlugins h ([], p.cmbRenderType)
  let p := { p with cmbRenderType := scanned.2 }
  let d : DlgAnimationRenderer :=
    { m_image := h.image, m_defaultFileName := defaultFileName, m_page := p,
      m_renderFilters := scanned.1, m_encoderConfigWidget := none,
      m_frameExportConfigWidget := none }
  match selectRenderType h d d.m_page.cmbRenderType.currentIndex with
  | Except.error e => Except.error e
  | Except.ok d =>
    let d := sequenceMimeTypeSelected h d d.m_page.cmbMimetype.currentIndex
    let ffmpeg := cfg.customFFMpegPath
    let d := { d with m_page := { d.m_page with ffmpegLocation := ffmpeg } }
    Except.ok (grpRenderSetChecked d (cfg.readEntryBool "render_animation" false))

/-- The destructor: the settings store after the three writes, or the fault of calling
`setParent` through a null sub-widget pointer (lines 152 and 154 have no null test). -/
def destruct (d : DlgAnimationRenderer) (cfg : KisConfig) : Except Fault KisConfig :=
  let cfg := cfg.writeEntryBool "render_animation" d.m_page.grpRender
  let cfg := cfg.writeEntryString "last_sequence_export_location" d.m_page.dirRequester
  let cfg := cfg.setCustomFFMpegPath d.m_page.ffmpegLocation
  match d.m_encoderConfigWidget with
  | none => Except.error Fault.nullDereference
  | some _ =>
    match d.m_frameExportConfigWidget with
    | none => Except.error Fault.nullDereference
    | some _ => Except.ok cfg

/-- A sequence of encoder changes: `selectRenderType` for each index in turn. -/
def selectRenderTypes (h : Host) (d : DlgAnimationRenderer) :
    List Int → Except Fault DlgAnimationRenderer
  | [] => Except.ok d
  | index :: rest =>
    match selectRenderType h d index with
    | Except.error e => Except.error e
    | Except.ok d1 => selectRenderTypes h d1 rest

/-- The first conventional suffix of the mime type attached to encoder `i`, if it has one:
`KisMimeDatabase::suffixesForMimeType(mimetype).first()`. -/
def encoderSuffix (h : Host) (d : DlgAnimationRenderer) (i : Nat) : Option String :=
  (h.suffixesForMimeType (d.m_page.cmbRenderType.itemData (i : Int)).toString).head?

/-- The user edits the start frame field: the spin box keeps what is typed inside its
range. -/
def editStartFrame (d : DlgAnimationRenderer) (v : Int) : DlgAnimationRenderer :=
  { d with m_page := { d.m_page with intStart := d.m_page.intStart.setValue v } }

/-- The user edits the end frame field. -/
def editEndFrame (d : DlgAnimationRenderer) (v : Int) : DlgAnimationRenderer :=
  { d with m_page := { d.m_page with intEnd := d.m_page.intEnd.setValue v } }

/-- The user picks entry `index` of the still-image format selector: the selector makes it
current and emits `activated(index)`, connected to `sequenceMimeTypeSelected`. -/
def activateMimetype (h : Host) (d : DlgAnimationRenderer) (index : Int) : DlgAnimationRenderer :=
  sequenceMimeTypeSelected h
    { d with m_page := { d.m_page with cmbMimetype := d.m_page.cmbMimetype.setCurrentIndex index } }
    index

end DlgAnimationRenderer

/-- Dialog states reachable from construction by edits of the start and end frame fields
and calls of `setSequenceConfiguration`. -/
inductive FrameRangeReachable (h : Host) (cfg : KisConfig) (ui : WdgAnimaterionRenderer) :
    DlgAnimationRenderer → Prop where
  | constructed (d : DlgAnimationRenderer) :
      DlgAnimationRenderer.construct h cfg ui = Except.ok d → FrameRangeReachable h cfg ui d
  | startEdited (d : DlgAnimationRenderer) (v : Int) :
      FrameRangeReachable h cfg ui d → FrameRangeReachable h cfg ui (d.editStartFrame v)
  | endEdited (d : DlgAnimationRenderer) (v : Int) :
      FrameRangeReachable h cfg ui d → FrameRangeReachable h cfg ui (d.editEndFrame v)
  | configured (d : DlgAnimationRenderer) (c : KisPropertiesConfiguration) :
      FrameRangeReachable h cfg ui d →
      FrameRangeReachable h cfg ui (d.setSequenceConfiguration h c)

/-- The value of a spin box lies in its range, as `QSpinBox` keeps it. -/
def QSpinBox.InRange (s : QSpinBox) : Prop :=
  s.minimum ≤ s.value ∧ s.value ≤ s.maximum

/-- The start and end frame fields range over the full clip range of the image, as the
constructor sets them up. -/
def FrameFieldsSpanClip (d : DlgAnimationRenderer) : Prop :=
  d.m_page.intStart.minimum = d.m_image.fullClipRange.start ∧
  d.m_page.intStart.maximum = d.m_image.fullClipRange.stop ∧
  d.m_page.intEnd.minimum = d.m_image.fullClipRange.start ∧
  d.m_page.intEnd.maximum = d.m_image.fullClipRange.stop

/-- A file extension: a suffix with neither a `.` nor a `/` in it. -/
def IsExtension (s : String) : Prop :=
  '.' ∉ s.data ∧ '/' ∉ s.data

instance (s : String) : Decidable (IsExtension s) := by
  unfold IsExtension
  infer_instance

/-- Encoder `k` can be selected and its format has an extension to suggest. -/
def EncoderWithExtension (h : Host) (d : DlgAnimationRenderer) (k : Nat) : Prop :=
  k < d.m_renderFilters.length ∧ ∃ u, d.encoderSuffix h k = some u ∧ IsExtension u

/-- The filter a loader yields when its factory and its filter object can be
instantiated; `none` for a plugin that fails to load or is not an export filter. -/
def loadableFilter (loader : QPluginLoader) : Option KisImportExportFilter :=
  match loader.rootFactory with
  | none => none
  | some factory =>
    match factory.create with
    | none => none
    | some obj => if obj.inheritsFilter = true then some obj.filter else none

/-- What encoder discovery is to find, in the words of the specification: one entry (the
filter and the mime type) per advertised mime type of each loadable plugin, in scan
order; a plugin that cannot be instantiated contributes nothing. -/
def expectedEncoders : List QPluginLoader → List (KisImportExportFilter × String)
  | [] => []
  | loader :: rest =>
    (match loadableFilter loader with
      | none => []
      | some f => (DlgAnimationRenderer.advertisedMimes loader).map (fun mime => (f, mime)))
    ++ expectedEncoders rest

/-! ## Concrete inputs -/

/-- A host with a document `clip.kra`, frames 0 to 100, two still-image formats and one
encoder plugin advertising two video formats. -/
def demoHost : Host where
  localFile := "/home/user/clip.kra"
  image := ⟨⟨0, 100⟩, ⟨10, 20⟩⟩
  picturesLocation := "/home/user/Pictures"
  mimeFilterExport := ["image/png", "image/jpeg"]
  descriptionForMimeType := fun _ => ""
  suffixesForMimeType := fun m =>
    if m = "video/ogg" then ["ogv", "ogg"] else if m = "image/gif" then ["gif"] else []
  filterForMimeType := fun m =>
    if m = "image/png" then some ⟨"png", true⟩
    else if m = "image/jpeg" then some ⟨"jpeg", false⟩
    else none
  animationExporters := [⟨"video/ogg,image/gif", some ⟨some ⟨true, ⟨"video", true⟩⟩⟩⟩]
  fileExists := fun path => path = "/usr/bin/ffmpeg"

/-- A form with empty selectors, as before the constructor fills it. -/
def demoPage : WdgAnimaterionRenderer where
  txtBasename := "frame"
  dirRequester := ""
  intStart := ⟨0, 99, 0⟩
  intEnd := ⟨0, 99, 0⟩
  sequenceStart := ⟨0, 9999, 0⟩
  cmbMimetype := ⟨[], -1, true⟩
  cmbRenderType := ⟨[], -1, true⟩
  videoFilename := ""
  chkDeleteSequence := false
  ffmpegLocation := ""
  grpRender := false

/-- A dialog with two still-image formats (JPEG selected), two encoders and both
sub-widgets present. -/
def demoDialog : DlgAnimationRenderer where
  m_image := ⟨⟨0, 100⟩, ⟨10, 20⟩⟩
  m_defaultFileName := "clip"
  m_page :=
    { txtBasename := "frame"
      dirRequester := "/home/user/Pictures"
      intStart := ⟨0, 100, 10⟩
      intEnd := ⟨0, 100, 20⟩
      sequenceStart := ⟨0, 9999, 1⟩
      cmbMimetype := ⟨[("image/jpeg", "image/jpeg"), ("image/png", "image/png")], 0, true⟩
      cmbRenderType := ⟨[("video/ogg", "video/ogg"), ("image/gif", "image/gif")], 0, true⟩
      videoFilename := "clip.ogv"
      chkDeleteSequence := true
      ffmpegLocation := "/usr/bin/ffmpeg"
      grpRender := true }
  m_renderFilters := [some ⟨"video", true⟩, some ⟨"video", true⟩]
  m_encoderConfigWidget := some ⟨"video", "video/ogg"⟩
  m_frameExportConfigWidget := some ⟨"png", "image/png"⟩

/-- The same dialog when no PNG export filter is installed. -/
def jpegOnlyDialog : DlgAnimationRenderer :=
  { demoDialog with
    m_page := { demoDialog.m_page with cmbMimetype := ⟨[("image/jpeg", "image/jpeg")], 0, true⟩ } }

/-- The dialog the constructor returns for `demoHost`, an empty settings store and
`demoPage`. -/
def constructedDemo : DlgAnimationRenderer where
  m_image := ⟨⟨0, 100⟩, ⟨10, 20⟩⟩
  m_defaultFileName := "clip"
  m_page :=
    { txtBasename := "frame"
      dirRequester := "/home/user/Pictures"
      intStart := ⟨0, 100, 10⟩
      intEnd := ⟨0, 100, 20⟩
      sequenceStart := ⟨0, 9999, 0⟩
      cmbMimetype := ⟨[("image/jpeg", "image/jpeg"), ("image/png", "image/png")], 1, true⟩
      cmbRenderType := ⟨[("video/ogg", "video/ogg"), ("image/gif", "image/gif")], 0, true⟩
      videoFilename := "clip.ogv"
      chkDeleteSequence := false
      ffmpegLocation := ""
      grpRender := false }
  m_renderFilters := [some ⟨"video", true⟩, some ⟨"video", true⟩]
  m_encoderConfigWidget := some ⟨"video", "video/ogg"⟩
  m_frameExportConfigWidget := some ⟨"png", "image/png"⟩

/-- A bag that defines the six sequence properties. -/
def demoSequenceConfiguration : KisPropertiesConfiguration :=
  ⟨[("basename", QVariant.ofString "shot"), ("directory", QVariant.ofString "/tmp/out"),
    ("first_frame", QVariant.ofInt 5), ("last_frame", QVariant.ofInt 50),
    ("sequence_start", QVariant.ofInt 7), ("mimetype", QVariant.ofString "image/png")]⟩

/-- The host of `demoHost` when its one encoder plugin has no `X-KDE-Export` entry: the
entry splits into the single mime type `""`, for which no suffix is known. -/
def noSuffixHost : Host :=
  { demoHost with animationExporters := [⟨"", some ⟨some ⟨true, ⟨"video", true⟩⟩⟩⟩] }

/-- A dialog whose only encoder has a format without a known suffix. -/
def noSuffixDialog : DlgAnimationRenderer :=
  { demoDialog with
    m_page := { demoDialog.m_page with cmbRenderType := ⟨[("", "")], 0, true⟩, videoFilename := "" }
    m_renderFilters := [some ⟨"video", true⟩] }

/-- The host of `demoHost` with a mime database whose first suffix for one encoder format
has a `.` in it. -/
def dottedSuffixHost : Host :=
  { demoHost with
    suffixesForMimeType := fun m =>
      if m = "application/x-compressed-tar" then ["tar.gz"]
      else if m = "image/gif" then ["gif"]
      else [] }

/-- A dialog with that format as encoder 0 and GIF as encoder 1, the remembered base name
`clip` and the file name field still empty. -/
def dottedSuffixDialog : DlgAnimationRenderer :=
  { demoDialog with
    m_page :=
      { demoDialog.m_page with
        cmbRenderType :=
          ⟨[("application/x-compressed-tar", "application/x-compressed-tar"),
            ("image/gif", "image/gif")], 0, true⟩
        videoFilename := "" } }

/-- The host of `demoHost` with no encoder plugin installed. -/
def noEncoderHost : Host :=
  { demoHost with animationExporters := [] }

/-- A dialog whose encoder selector is empty. -/
def noEncoderDialog : DlgAnimationRenderer :=
  { demoDialog with
    m_page := { demoDialog.m_page with cmbRenderType := ⟨[], -1, true⟩, videoFilename := "" }
    m_renderFilters := []
    m_encoderConfigWidget := none }

/-! ## The property bag -/

theorem QVariantMap.value_insert_self (m : QVariantMap) (key : String) (v : QVariant) :
    (m.insert key v).value key = v := by
  simp [QVariantMap.insert, QVariantMap.value, List.lookup]

theorem QVariantMap.lookup_filter_ne (m : QVariantMap) (key other : String) (hne : other ≠ key) :
    (m.filter (fun kv => !(kv.1 == key))).lookup other = m.lookup other := by
  induction m with
  | nil => rfl
  | cons kv rest ih =>
    obtain ⟨k, v⟩ := kv
    by_cases hk : k = key
    · have hok : (other == k) = false := by
        rw [hk]; exact beq_false_of_ne hne
      have hkk : (k == key) = true := by rw [hk]; exact beq_self_eq_true key
      rw [List.filter_cons]
      simp only [hkk, Bool.not_true, Bool.false_eq_true, if_false, List.lookup, hok]
      exact ih
    · have hkk : (k == key) = false := beq_false_of_ne hk
      rw [List.filter_cons]
      simp only [hkk, Bool.not_false, if_true, List.lookup]
      rw [ih]

theorem QVariantMap.value_insert_other (m : QVariantMap) (key other : String) (v : QVariant)
    (hne : other ≠ key) : (m.insert key v).value other = m.value other := by
  have hok : (other == key) = false := beq_false_of_ne hne
  unfold QVariantMap.insert QVariantMap.value
  simp only [List.lookup, hok]
  rw [QVariantMap.lookup_filter_ne m key other hne]

theorem KisPropertiesConfiguration.getProperty_setProperty_self
    (cfg : KisPropertiesConfiguration) (name : String) (v : QVariant) :
    (cfg.setProperty name v).getProperty name = v :=
  QVariantMap.value_insert_self _ _ _

theorem KisPropertiesConfiguration.getProperty_setProperty_other
    (cfg : KisPropertiesConfiguration) (name other : String) (v : QVariant) (hne : other ≠ name) :
    (cfg.setProperty name v).getProperty other = cfg.getProperty other :=
  QVariantMap.value_insert_other _ _ _ _ hne

theorem QComboBox.itemData_natCast (c : QComboBox) (i : Nat) (it : String × String)
    (hget : c.items[i]? = some it) : c.itemData (i : Int) = QVariant.ofString it.2 := by
  have hneg : ¬ ((i : Int) < 0) := by omega
  unfold QComboBox.itemData
  simp only [hneg, if_false, Int.toNat_ofNat, hget]

/-- The six properties of the bag `getSequenceConfiguration` builds. -/
theorem getSequenceConfiguration_properties (d : DlgAnimationRenderer) :
    ∃ cfg, d.getSequenceConfiguration = some cfg ∧
      cfg.getProperty "basename" = QVariant.ofString d.m_page.txtBasename ∧
      cfg.getProperty "directory" = QVariant.ofString d.m_page.dirRequester ∧
      cfg.getProperty "first_frame" = QVariant.ofInt d.m_page.intStart.value ∧
      cfg.getProperty "last_frame" = QVariant.ofInt d.m_page.intEnd.value ∧
      cfg.getProperty "sequence_start" = QVariant.ofInt d.m_page.sequenceStart.value ∧
      cfg.getProperty "mimetype" = QVariant.ofString d.m_page.cmbMimetype.currentData.toString := by
  refine ⟨_, rfl, ?_, ?_, ?_, ?_, ?_, ?_⟩ <;>
    simp [KisPropertiesConfiguration.getProperty_setProperty_self,
      KisPropertiesConfiguration.getProperty_setProperty_other]

/-! ## Accepting the dialog -/

/-- C1: a click is handed on to `KoDialog::slotButtonClicked` exactly when it is not a
confirmation with "render to video" checked, or the video file name is non-empty, the
FFmpeg path is non-empty and the FFmpeg path exists on disk; a click either is handed on
unchanged without a warning or is not handed on and shows a warning; on a confirmation
with "render to video" checked each of an empty video file name, an empty FFmpeg path and
an FFmpeg path that does not exist shows a warning and keeps the click back; Cancel is
always handed on. -/
theorem slotButtonClicked_forwards_iff (h : Host) (d : DlgAnimationRenderer) (button : Int) :
    ((d.slotButtonClicked h button).forwarded = some button ↔
      (¬ (button = DlgAnimationRenderer.KoDialog_Ok ∧ d.renderToVideo = true) ∨
        (d.m_page.videoFilename ≠ "" ∧ d.m_page.ffmpegLocation ≠ "" ∧
          h.fileExists d.m_page.ffmpegLocation = true))) ∧
    (((d.slotButtonClicked h button).forwarded = some button ∧
        (d.slotButtonClicked h button).warning = none) ∨
      ((d.slotButtonClicked h button).forwarded = none ∧
        (d.slotButtonClicked h button).warning ≠ none)) ∧
    ((button = DlgAnimationRenderer.KoDialog_Ok ∧ d.renderToVideo = true) →
      (d.m_page.videoFilename = "" →
        (d.slotButtonClicked h button).warning ≠ none ∧
          (d.slotButtonClicked h button).forwarded = none) ∧
      (d.m_page.ffmpegLocation = "" →
        (d.slotButtonClicked h button).warning ≠ none ∧
          (d.slotButtonClicked h button).forwarded = none) ∧
      (h.fileExists d.m_page.ffmpegLocation = false →
        (d.slotButtonClicked h button).warning ≠ none ∧
          (d.slotButtonClicked h button).forwarded = none)) ∧
    d.slotButtonClicked h DlgAnimationRenderer.KoDialog_Cancel =
      ⟨none, some DlgAnimationRenderer.KoDialog_Cancel⟩ := by
  have hcancel : DlgAnimationRenderer.KoDialog_Cancel ≠ DlgAnimationRenderer.KoDialog_Ok := by
    decide
  refine ⟨?_, ?_, ?_, ?_⟩
  · unfold DlgAnimationRenderer.slotButtonClicked DlgAnimationRenderer.renderToVideo
    by_cases hb : button = DlgAnimationRenderer.KoDialog_Ok ∧ d.m_page.grpRender = true
    · by_cases hv : d.m_page.videoFilename = ""
      · simp [hb, hv]
      · by_cases hf : d.m_page.ffmpegLocation = ""
        · simp [hb, hv, hf]
        · by_cases he : h.fileExists d.m_page.ffmpegLocation = false
          · simp [hb, hv, hf, he]
          · simp [hb, hv, hf, he]
    · simp [hb]
  · unfold DlgAnimationRenderer.slotButtonClicked
    by_cases hb : button = DlgAnimationRenderer.KoDialog_Ok ∧ d.m_page.grpRender = true
    · by_cases hv : d.m_page.videoFilename = ""
      · simp [hb, hv]
      · by_cases hf : d.m_page.ffmpegLocation = ""
        · simp [hb, hv, hf]
        · by_cases he : h.fileExists d.m_page.ffmpegLocation = false
          · simp [hb, hv, hf, he]
          · simp [hb, hv, hf, he]
    · simp [hb]
  · intro hb
    unfold DlgAnimationRenderer.renderToVideo at hb
    unfold DlgAnimationRenderer.slotButtonClicked
    refine ⟨?_, ?_, ?_⟩
    · intro hv
      simp [hb, hv]
    · intro hf
      by_cases hv : d.m_page.videoFilename = ""
      · simp [hb, hv]
      · simp [hb, hv, hf]
    · intro he
      by_cases hv : d.m_page.videoFilename = ""
      · simp [hb, hv]
      · by_cases hf : d.m_page.ffmpegLocation = ""
        · simp [hb, hv, hf]
        · simp [hb, hv, hf, he]
  · unfold DlgAnimationRenderer.slotButtonClicked
    simp [hcancel]

/-- C1 at a concrete dialog: a confirmation is handed on when the FFmpeg path exists. -/
theorem slotButtonClicked_forwards_iff_witness :
    (demoDialog.slotButtonClicked demoHost DlgAnimationRenderer.KoDialog_Ok).forwarded =
      some DlgAnimationRenderer.KoDialog_Ok :=
  (slotButtonClicked_forwards_iff demoHost demoDialog DlgAnimationRenderer.KoDialog_Ok).1.2
    (Or.inr ⟨by decide, by decide, by simp [demoHost, demoDialog]⟩)

/-- C2: the bag returned by `getSequenceConfiguration` is present and its `first_frame`,
`last_frame`, `basename`, `directory`, `sequence_start` and `mimetype` read back as the
current start frame, end frame, basename text, directory field, sequence-start field and
the mime type attached to the selected still-image format (the empty string when nothing
is selected).  The function is `const`: it is a function of the dialog state and returns
nothing but the bag. -/
theorem getSequenceConfiguration_reads_form (d : DlgAnimationRenderer) :
    ∃ cfg, d.getSequenceConfiguration = some cfg ∧
      cfg.getInt "first_frame" 0 = d.m_page.intStart.value ∧
      cfg.getInt "last_frame" 0 = d.m_page.intEnd.value ∧
      cfg.getString "basename" "" = d.m_page.txtBasename ∧
      cfg.getString "directory" "" = d.m_page.dirRequester ∧
      cfg.getInt "sequence_start" 0 = d.m_page.sequenceStart.value ∧
      cfg.getString "mimetype" "" = (d.m_page.cmbMimetype.itemData d.m_page.cmbMimetype.currentIndex).toString ∧
      (∀ name, cfg.hasProperty name = true →
        name ∈ ["basename", "directory", "first_frame", "last_frame", "sequence_start", "mimetype"]) ∧
      (∀ (i : Nat) (text mime : String), d.m_page.cmbMimetype.currentIndex = (i : Int) →
        d.m_page.cmbMimetype.items[i]? = some (text, mime) →
        cfg.getProperty "mimetype" = QVariant.ofString mime) := by
  obtain ⟨cfg, hcfg, h1, h2, h3, h4, h5, h6⟩ := getSequenceConfiguration_properties d
  refine ⟨cfg, hcfg, ?_, ?_, ?_, ?_, ?_, ?_, ?_, ?_⟩
  · simp [KisPropertiesConfiguration.getInt, h3, QVariant.isValid, QVariant.toInt]
  · simp [KisPropertiesConfiguration.getInt, h4, QVariant.isValid, QVariant.toInt]
  · simp [KisPropertiesConfiguration.getString, h1, QVariant.isValid, QVariant.toString]
  · simp [KisPropertiesConfiguration.getString, h2, QVariant.isValid, QVariant.toString]
  · simp [KisPropertiesConfiguration.getInt, h5, QVariant.isValid, QVariant.toInt]
  · simp [KisPropertiesConfiguration.getString, h6, QVariant.isValid, QVariant.toString,
      QComboBox.currentData]
  · intro name hname
    by_contra hnot
    simp only [List.mem_cons, List.mem_singleton, List.not_mem_nil, or_false, not_or] at hnot
    obtain ⟨n1, n2, n3, n4, n5, n6⟩ := hnot
    have hc : cfg = _ := (Option.some.inj hcfg).symm
    rw [hc, KisPropertiesConfiguration.hasProperty,
      KisPropertiesConfiguration.getProperty_setProperty_other _ _ _ _ n6,
      KisPropertiesConfiguration.getProperty_setProperty_other _ _ _ _ n5,
      KisPropertiesConfiguration.getProperty_setProperty_other _ _ _ _ n4,
      KisPropertiesConfiguration.getProperty_setProperty_other _ _ _ _ n3,
      KisPropertiesConfiguration.getProperty_setProperty_other _ _ _ _ n2,
      KisPropertiesConfiguration.getProperty_setProperty_other _ _ _ _ n1] at hname
    simp [KisPropertiesConfiguration.getProperty, KisPropertiesConfiguration.empty,
      QVariantMap.value, QVariant.isValid] at hname
  · intro i text mime hi hget
    rw [h6, QComboBox.currentData, hi, QComboBox.itemData_natCast _ _ _ hget]
    rfl

/-- C3: the video and the encoder configuration are null exactly when `renderToVideo()` is
false; when it is true the video configuration holds `filename` (the video output field)
and `delete_sequence` (the check box), and the encoder configuration holds `mimetype`,
the mime type attached to the selected encoder. -/
theorem video_encoder_configuration_present_iff (d : DlgAnimationRenderer) :
    (d.getVideoConfiguration = none ↔ d.renderToVideo = false) ∧
    (d.getEncoderConfiguration = none ↔ d.renderToVideo = false) ∧
    (d.renderToVideo = true →
      ∃ v e, d.getVideoConfiguration = some v ∧ d.getEncoderConfiguration = some e ∧
        v.getProperty "filename" = QVariant.ofString d.m_page.videoFilename ∧
        v.getProperty "delete_sequence" = QVariant.ofBool d.m_page.chkDeleteSequence ∧
        e.getProperty "mimetype" =
          QVariant.ofString (d.m_page.cmbRenderType.itemData d.m_page.cmbRenderType.currentIndex).toString ∧
        (∀ (i : Nat) (text mime : String), d.m_page.cmbRenderType.currentIndex = (i : Int) →
          d.m_page.cmbRenderType.items[i]? = some (text, mime) →
          e.getProperty "mimetype" = QVariant.ofString mime)) := by
  unfold DlgAnimationRenderer.getVideoConfiguration DlgAnimationRenderer.getEncoderConfiguration
    DlgAnimationRenderer.renderToVideo
  cases hg : d.m_page.grpRender
  · simp
  · refine ⟨by simp, by simp, fun _ => ⟨_, _, rfl, rfl, ?_, ?_, ?_, ?_⟩⟩
    · rw [KisPropertiesConfiguration.getProperty_setProperty_other _ _ _ _ (by decide),
        KisPropertiesConfiguration.getProperty_setProperty_self]
    · rw [KisPropertiesConfiguration.getProperty_setProperty_self]
    · rw [KisPropertiesConfiguration.getProperty_setProperty_self]
      rfl
    · intro i text mime hi hget
      rw [KisPropertiesConfiguration.getProperty_setProperty_self, QComboBox.currentData, hi,
        QComboBox.itemData_natCast _ _ _ hget]
      rfl

/-- C3 at a concrete dialog with "render to video" checked and the first encoder selected. -/
theorem video_encoder_configuration_present_iff_witness :
    ∃ v e, demoDialog.getVideoConfiguration = some v ∧ demoDialog.getEncoderConfiguration = some e ∧
      v.getProperty "filename" = QVariant.ofString "clip.ogv" ∧
      v.getProperty "delete_sequence" = QVariant.ofBool true ∧
      e.getProperty "mimetype" = QVariant.ofString "video/ogg" := by
  obtain ⟨v, e, hv, he, h1, h2, _, h4⟩ :=
    (video_encoder_configuration_present_iff demoDialog).2.2 rfl
  exact ⟨v, e, hv, he, h1, h2, h4 0 "video/ogg" "video/ogg" rfl rfl⟩

/-! ## Forcing PNG -/

theorem firstIndexOfData_some (c : QComboBox) (data : String) (i : Nat)
    (hfind : firstIndexOfData c data = some i) :
    i < c.items.length ∧ (c.itemData (i : Int)).toString = data := by
  unfold firstIndexOfData at hfind
  have hmem := List.mem_of_find?_eq_some hfind
  have hp := List.find?_some hfind
  exact ⟨List.mem_range.mp hmem, by simpa using hp⟩

theorem firstIndexOfData_none (c : QComboBox) (data : String)
    (hfind : firstIndexOfData c data = none) : ∀ it ∈ c.items, it.2 ≠ data := by
  unfold firstIndexOfData at hfind
  rw [List.find?_eq_none] at hfind
  intro it hit heq
  obtain ⟨i, hi, hget⟩ := List.getElem_of_mem hit
  have hget2 : c.items[i]? = some it := by
    rw [List.getElem?_eq_getElem hi, hget]
  apply hfind i (List.mem_range.mpr hi)
  rw [QComboBox.itemData_natCast c i it hget2]
  simpa [QVariant.toString] using heq

theorem QComboBox.itemData_of_lt (c : QComboBox) (i : Nat) (hi : i < c.items.length) :
    c.itemData (i : Int) = QVariant.ofString (c.items[i]).2 :=
  QComboBox.itemData_natCast c i _ (List.getElem?_eq_getElem hi)

theorem QComboBox.currentData_setCurrentIndex (c : QComboBox) (i : Nat)
    (hi : i < c.items.length) :
    (c.setCurrentIndex (i : Int)).currentData = c.itemData (i : Int) := by
  have hin : (0 : Int) ≤ (i : Int) ∧ (i : Int) < c.count := by
    unfold QComboBox.count
    omega
  unfold QComboBox.setCurrentIndex QComboBox.currentData
  simp only [hin, and_self, if_true]
  rfl

/-- After the search-and-select loop for `data`, the current data is `data` as soon as
some item carries it. -/
theorem currentData_after_select (c : QComboBox) (data : String) (i : Nat)
    (hfind : firstIndexOfData c data = some i) :
    (c.setCurrentIndex (i : Int)).currentData = QVariant.ofString data := by
  obtain ⟨hi, hdata⟩ := firstIndexOfData_some c data i hfind
  rw [QComboBox.currentData_setCurrentIndex c i hi]
  rw [QComboBox.itemData_of_lt c i hi] at hdata ⊢
  simp only [QVariant.toString] at hdata
  rw [hdata]

theorem toggleSequenceType_cmbMimetype (d : DlgAnimationRenderer) (toggle : Bool) :
    (d.toggleSequenceType toggle).m_page.cmbMimetype =
      match firstIndexOfData (d.m_page.cmbMimetype.setEnabled (!toggle)) "image/png" with
      | some i => (d.m_page.cmbMimetype.setEnabled (!toggle)).setCurrentIndex (i : Int)
      | none => d.m_page.cmbMimetype.setEnabled (!toggle) :=
  rfl

/-- C4, as the code has it: `toggleSequenceType(toggle)` sets the enabled flag of the
still-image format selector to `!toggle` and keeps its items.  `toggleSequenceType(true)`
leaves the selector disabled and, when the selector has an `image/png` entry, `image/png`
selected.  `toggleSequenceType(false)` leaves the selector enabled, and the selected format
is what it was before the call when that was `image/png` or when the selector has no
`image/png` entry. -/
theorem toggleSequenceType_selector (d : DlgAnimationRenderer) :
    ((d.toggleSequenceType true).m_page.cmbMimetype.enabled = false ∧
      (d.toggleSequenceType true).m_page.cmbMimetype.items = d.m_page.cmbMimetype.items ∧
      ((∃ it ∈ d.m_page.cmbMimetype.items, it.2 = "image/png") →
        (d.toggleSequenceType true).m_page.cmbMimetype.currentData = QVariant.ofString "image/png")) ∧
    ((d.toggleSequenceType false).m_page.cmbMimetype.enabled = true ∧
      (d.toggleSequenceType false).m_page.cmbMimetype.items = d.m_page.cmbMimetype.items ∧
      ((d.m_page.cmbMimetype.currentData = QVariant.ofString "image/png" ∨
          ¬ ∃ it ∈ d.m_page.cmbMimetype.items, it.2 = "image/png") →
        (d.toggleSequenceType false).m_page.cmbMimetype.currentData =
          d.m_page.cmbMimetype.currentData)) := by
  have key : ∀ toggle : Bool,
      (d.toggleSequenceType toggle).m_page.cmbMimetype.enabled = !toggle ∧
      (d.toggleSequenceType toggle).m_page.cmbMimetype.items = d.m_page.cmbMimetype.items ∧
      ((∃ it ∈ d.m_page.cmbMimetype.items, it.2 = "image/png") →
        (d.toggleSequenceType toggle).m_page.cmbMimetype.currentData = QVariant.ofString "image/png") ∧
      ((¬ ∃ it ∈ d.m_page.cmbMimetype.items, it.2 = "image/png") →
        (d.toggleSequenceType toggle).m_page.cmbMimetype.currentData =
          d.m_page.cmbMimetype.currentData) := by
    intro toggle
    cases hfind : firstIndexOfData (d.m_page.cmbMimetype.setEnabled (!toggle)) "image/png" with
    | none =>
      have hno := firstIndexOfData_none _ _ hfind
      simp only [toggleSequenceType_cmbMimetype, hfind]
      refine ⟨rfl, rfl, ?_, fun _ => rfl⟩
      rintro ⟨it, hit, hpng⟩
      exact absurd hpng (hno it hit)
    | some i =>
      have hsel := currentData_after_select _ _ i hfind
      obtain ⟨hi, hdata⟩ := firstIndexOfData_some _ _ i hfind
      simp only [toggleSequenceType_cmbMimetype, hfind]
      refine ⟨rfl, rfl, fun _ => hsel, ?_⟩
      intro hnone
      exfalso
      apply hnone
      refine ⟨(d.m_page.cmbMimetype.items[i]), List.getElem_mem hi, ?_⟩
      rw [QComboBox.itemData_of_lt _ i hi] at hdata
      exact hdata
  obtain ⟨e1, i1, p1, _⟩ := key true
  obtain ⟨e2, i2, p2, n2⟩ := key false
  refine ⟨⟨e1, i1, p1⟩, e2, i2, ?_⟩
  rintro (hcur | hno)
  · by_cases hex : ∃ it ∈ d.m_page.cmbMimetype.items, it.2 = "image/png"
    · rw [p2 hex, hcur]
    · exact n2 hex
  · exact n2 hno

/-- C4 at a concrete dialog: with a PNG entry in the selector, checking "render to video"
selects it. -/
theorem toggleSequenceType_selector_witness :
    (demoDialog.toggleSequenceType true).m_page.cmbMimetype.currentData =
      QVariant.ofString "image/png" :=
  (toggleSequenceType_selector demoDialog).1.2.2
    ⟨("image/png", "image/png"), by simp [demoDialog], rfl⟩

/-- C4 fails as first stated: unchecking "render to video" while JPEG is selected selects
PNG, and checking it when no PNG entry exists leaves JPEG selected. -/
theorem toggleSequenceType_changes_format :
    (demoDialog.m_page.cmbMimetype.currentData = QVariant.ofString "image/jpeg" ∧
      (demoDialog.toggleSequenceType false).m_page.cmbMimetype.currentData =
        QVariant.ofString "image/png") ∧
    (jpegOnlyDialog.toggleSequenceType true).m_page.cmbMimetype.currentData =
      QVariant.ofString "image/jpeg" := by
  decide

/-! ## The suggested video file name -/

theorem dropWhile_append_stop {α : Type} (p : α → Bool) (l r : List α) (a : α)
    (hl : ∀ x ∈ l, p x = true) (ha : p a = false) :
    (l ++ a :: r).dropWhile p = a :: r := by
  induction l with
  | nil => simp [List.dropWhile_cons, ha]
  | cons x rest ih =>
    have hx : p x = true := hl x (List.mem_cons_self x rest)
    rw [List.cons_append, List.dropWhile_cons, if_pos hx]
    exact ih (fun y hy => hl y (List.mem_cons_of_mem x hy))

theorem fileNameChars_no_slash (path : List Char) : '/' ∉ fileNameChars path := by
  unfold fileNameChars
  intro hmem
  have hp := List.mem_takeWhile_imp (List.mem_reverse.mp hmem)
  simp at hp

theorem fileNameChars_of_no_slash (path : List Char) (hno : '/' ∉ path) :
    fileNameChars path = path := by
  unfold fileNameChars
  have hall : path.reverse.takeWhile (fun c => c ≠ '/') = path.reverse := by
    rw [List.takeWhile_eq_self_iff]
    intro x hx
    have hxp : x ∈ path := List.mem_reverse.mp hx
    have hne : x ≠ '/' := fun heq => hno (heq ▸ hxp)
    simpa using hne
  rw [hall, List.reverse_reverse]

theorem completeBaseNameChars_no_slash (path : List Char) :
    '/' ∉ completeBaseNameChars path := by
  unfold completeBaseNameChars
  have hfile := fileNameChars_no_slash path
  by_cases hdot : '.' ∈ fileNameChars path
  · simp only [hdot, if_true]
    intro hmem
    have h1 := List.mem_reverse.mp hmem
    have h2 := List.mem_of_mem_drop h1
    have h3 := (List.dropWhile_sublist _).subset h2
    exact hfile (List.mem_reverse.mp h3)
  · simp only [hdot, if_false]
    exact hfile

theorem completeBaseNameChars_append_extension (base ext : List Char)
    (hbase : '/' ∉ base) (hslash : '/' ∉ ext) (hdot : '.' ∉ ext) :
    completeBaseNameChars (base ++ '.' :: ext) = base := by
  have hno : '/' ∉ base ++ '.' :: ext := by
    intro hmem
    rcases List.mem_append.mp hmem with h1 | h1
    · exact hbase h1
    · rcases List.mem_cons.mp h1 with h2 | h2
      · exact absurd h2 (by decide)
      · exact hslash h2
  unfold completeBaseNameChars
  rw [fileNameChars_of_no_slash _ hno]
  have hin : '.' ∈ base ++ '.' :: ext :=
    List.mem_append_right _ (List.mem_cons_self _ _)
  simp only [hin, if_true]
  have hrev : (base ++ '.' :: ext).reverse = ext.reverse ++ '.' :: base.reverse := by
    simp
  rw [hrev, dropWhile_append_stop (fun c => decide (c ≠ '.')) ext.reverse base.reverse '.'
    (by
      intro x hx
      have hxe : x ∈ ext := List.mem_reverse.mp hx
      have hne : x ≠ '.' := fun heq => hdot (heq ▸ hxe)
      simpa using hne)
    (by simp)]
  simp

theorem completeBaseName_no_slash (path : String) : '/' ∉ (completeBaseName path).data :=
  completeBaseNameChars_no_slash path.data

theorem completeBaseName_append_extension (base ext : String)
    (hbase : '/' ∉ base.data) (hext : IsExtension ext) :
    completeBaseName (base ++ "." ++ ext) = base := by
  unfold completeBaseName
  have hdata : (base ++ "." ++ ext).data = base.data ++ '.' :: ext.data := by
    simp [String.data_append]
  rw [hdata, completeBaseNameChars_append_extension base.data ext.data hbase hext.2 hext.1]

theorem qlistAt_natCast {α : Type} (l : List α) (i : Nat) (hi : i < l.length) :
    qlistAt l (i : Int) = Except.ok l[i] := by
  have hneg : ¬ ((i : Int) < 0) := by omega
  unfold qlistAt
  simp only [hneg, if_false, Int.toNat_ofNat, List.getElem?_eq_getElem hi]

/-- One encoder change at a valid index whose format has a first suffix `s`. -/
theorem selectRenderType_step (h : Host) (d : DlgAnimationRenderer) (i : Nat) (s : String)
    (hi : i < d.m_renderFilters.length) (hs : d.encoderSuffix h i = some s) :
    ∃ d1, d.selectRenderType h (i : Int) = Except.ok d1 ∧
      d1.m_defaultFileName =
        (if d.m_page.videoFilename ≠ "" ∧
            completeBaseName d.m_page.videoFilename ≠ d.m_defaultFileName then
          completeBaseName d.m_page.videoFilename
        else d.m_defaultFileName) ∧
      d1.m_page.videoFilename = d1.m_defaultFileName ++ "." ++ s ∧
      d1.m_renderFilters = d.m_renderFilters ∧
      d1.m_page.cmbRenderType = d.m_page.cmbRenderType := by
  have hge : ¬ ((i : Int) ≥ (d.m_renderFilters.length : Int)) := by omega
  have hat := qlistAt_natCast d.m_renderFilters i hi
  unfold DlgAnimationRenderer.encoderSuffix at hs
  obtain ⟨ys, hys⟩ := List.head?_eq_some_iff.mp hs
  unfold DlgAnimationRenderer.selectRenderType
  simp only [hge, if_false, hat, hys, qlistFirst]
  by_cases hc : d.m_page.videoFilename ≠ "" ∧
      completeBaseName d.m_page.videoFilename ≠ d.m_defaultFileName
  · simp only [if_pos hc]
    cases d.m_renderFilters[i] <;> exact ⟨_, rfl, rfl, rfl, rfl, rfl⟩
  · simp only [if_neg hc]
    cases d.m_renderFilters[i] <;> exact ⟨_, rfl, rfl, rfl, rfl, rfl⟩

theorem encoderWithExtension_congr (h : Host) (d d1 : DlgAnimationRenderer) (k : Nat)
    (hfilters : d1.m_renderFilters = d.m_renderFilters)
    (hcombo : d1.m_page.cmbRenderType = d.m_page.cmbRenderType)
    (hk : EncoderWithExtension h d k) : EncoderWithExtension h d1 k := by
  unfold EncoderWithExtension DlgAnimationRenderer.encoderSuffix at *
  rw [hfilters, hcombo]
  exact hk

/-- Once the file name field holds the remembered base name with an extension, encoder
changes keep the remembered base name and replace only the extension. -/
theorem selectRenderTypes_keeps_base (h : Host) (rest : List Nat) :
    ∀ (d : DlgAnimationRenderer) (u : String) (j : Nat) (t : String),
      '/' ∉ d.m_defaultFileName.data → IsExtension u →
      d.m_page.videoFilename = d.m_defaultFileName ++ "." ++ u →
      (∀ k ∈ rest ++ [j], EncoderWithExtension h d k) →
      d.encoderSuffix h j = some t →
      ∃ d2, d.selectRenderTypes h ((rest ++ [j]).map (fun k => (k : Int))) = Except.ok d2 ∧
        d2.m_defaultFileName = d.m_defaultFileName ∧
        d2.m_page.videoFilename = d.m_defaultFileName ++ "." ++ t := by
  induction rest with
  | nil =>
    intro d u j t hslash hu hname hall ht
    have hj : EncoderWithExtension h d j := hall j (by simp)
    obtain ⟨d1, hrun, hbase, hfile, _, _⟩ := selectRenderType_step h d j t hj.1 ht
    have hsame : completeBaseName d.m_page.videoFilename = d.m_defaultFileName := by
      rw [hname]
      exact completeBaseName_append_extension _ _ hslash hu
    have hnot : ¬ (d.m_page.videoFilename ≠ "" ∧
        completeBaseName d.m_page.videoFilename ≠ d.m_defaultFileName) :=
      fun hc => hc.2 hsame
    rw [if_neg hnot] at hbase
    refine ⟨d1, ?_, hbase, ?_⟩
    · simp only [List.nil_append, List.map_cons, List.map_nil,
        DlgAnimationRenderer.selectRenderTypes, hrun]
    · rw [hfile, hbase]
  | cons k rest ih =>
    intro d u j t hslash hu hname hall ht
    have hk : EncoderWithExtension h d k := hall k (by simp)
    obtain ⟨hklt, v, hv, hvext⟩ := hk
    obtain ⟨d1, hrun, hbase, hfile, hfilters, hcombo⟩ := selectRenderType_step h d k v hklt hv
    have hsame : completeBaseName d.m_page.videoFilename = d.m_defaultFileName := by
      rw [hname]
      exact completeBaseName_append_extension _ _ hslash hu
    have hnot : ¬ (d.m_page.videoFilename ≠ "" ∧
        completeBaseName d.m_page.videoFilename ≠ d.m_defaultFileName) :=
      fun hc => hc.2 hsame
    rw [if_neg hnot] at hbase
    have hall1 : ∀ m ∈ rest ++ [j], EncoderWithExtension h d1 m := by
      intro m hm
      exact encoderWithExtension_congr h d d1 m hfilters hcombo
        (hall m (by simp only [List.cons_append, List.mem_cons]; exact Or.inr hm))
    have ht1 : d1.encoderSuffix h j = some t := by
      unfold DlgAnimationRenderer.encoderSuffix at ht ⊢
      rw [hcombo]
      exact ht
    obtain ⟨d2, hrun2, hbase2, hfile2⟩ :=
      ih d1 v j t (by rw [hbase]; exact hslash) hvext hfile hall1 ht1
    refine ⟨d2, ?_, by rw [hbase2, hbase], by rw [hfile2, hbase]⟩
    simp only [List.cons_append, List.map_cons, DlgAnimationRenderer.selectRenderTypes, hrun]
    exact hrun2

/-- C5, as the code has it: for a valid encoder index `i` whose format has a first
conventional suffix `s`, `selectRenderType(i)` returns and leaves the suggested video file name equal to
`B + "." + s`, where `B` is the remembered base name after the call: the complete base
name of the file name field when that field was non-empty and its complete base name
differed from the remembered one, the unchanged remembered base name otherwise.  When
the suffixes are file extensions (no `.`, no `/`) and the remembered base name is a base
name (no `/`, as the constructor makes it), every later sequence of encoder changes
keeps `B` as the remembered base name and ends with the file name `B + "." + t`, `t` the
first suffix of the encoder selected last. -/
theorem selectRenderType_suggested_filename (h : Host) (d : DlgAnimationRenderer)
    (i : Nat) (s : String)
    (hi : i < d.m_renderFilters.length) (hs : d.encoderSuffix h i = some s) :
    ∃ d1, d.selectRenderType h (i : Int) = Except.ok d1 ∧
      d1.m_page.videoFilename = d1.m_defaultFileName ++ "." ++ s ∧
      ((d.m_page.videoFilename ≠ "" ∧
          completeBaseName d.m_page.videoFilename ≠ d.m_defaultFileName) →
        d1.m_defaultFileName = completeBaseName d.m_page.videoFilename) ∧
      (¬ (d.m_page.videoFilename ≠ "" ∧
          completeBaseName d.m_page.videoFilename ≠ d.m_defaultFileName) →
        d1.m_defaultFileName = d.m_defaultFileName) ∧
      (IsExtension s → '/' ∉ d.m_defaultFileName.data →
        ∀ (rest : List Nat) (j : Nat) (t : String),
          (∀ k ∈ rest ++ [j], EncoderWithExtension h d k) →
          d.encoderSuffix h j = some t →
          ∃ d2, d1.selectRenderTypes h ((rest ++ [j]).map (fun k => (k : Int))) = Except.ok d2 ∧
            d2.m_defaultFileName = d1.m_defaultFileName ∧
            d2.m_page.videoFilename = d1.m_defaultFileName ++ "." ++ t) := by
  obtain ⟨d1, hrun, hbase, hfile, hfilters, hcombo⟩ := selectRenderType_step h d i s hi hs
  refine ⟨d1, hrun, hfile, ?_, ?_, ?_⟩
  · intro hc
    rw [hbase, if_pos hc]
  · intro hc
    rw [hbase, if_neg hc]
  · intro hext hslash rest j t hall ht
    have hslash1 : '/' ∉ d1.m_defaultFileName.data := by
      rw [hbase]
      split
      · exact completeBaseName_no_slash _
      · exact hslash
    have hall1 : ∀ m ∈ rest ++ [j], EncoderWithExtension h d1 m := fun m hm =>
      encoderWithExtension_congr h d d1 m hfilters hcombo (hall m hm)
    have ht1 : d1.encoderSuffix h j = some t := by
      unfold DlgAnimationRenderer.encoderSuffix at ht ⊢
      rw [hcombo]
      exact ht
    exact selectRenderTypes_keeps_base h rest d1 s j t hslash1 hext hfile hall1 ht1

/-- C5 at a concrete dialog: the user typed `/tmp/holiday.ogv`, then selects the GIF encoder,
then the OGG encoder and the GIF encoder again. -/
theorem selectRenderType_suggested_filename_witness :
    ∃ d1 d2,
      ({ demoDialog with m_page := { demoDialog.m_page with videoFilename := "/tmp/holiday.ogv" } }
        : DlgAnimationRenderer).selectRenderType demoHost 1 = Except.ok d1 ∧
      d1.m_defaultFileName = "holiday" ∧ d1.m_page.videoFilename = "holiday.gif" ∧
      d1.selectRenderTypes demoHost [0, 1] = Except.ok d2 ∧
      d2.m_defaultFileName = "holiday" ∧ d2.m_page.videoFilename = "holiday.gif" := by
  obtain ⟨d1, hrun, hfile, hcustom, _, hlater⟩ :=
    selectRenderType_suggested_filename demoHost
      { demoDialog with m_page := { demoDialog.m_page with videoFilename := "/tmp/holiday.ogv" } }
      1 "gif" (by decide) (by decide)
  have hbase : d1.m_defaultFileName = "holiday" := by
    rw [hcustom (by decide)]
    decide
  obtain ⟨d2, hrun2, hbase2, hfile2⟩ := hlater (by decide) (by decide) [0] 1 "gif"
    (by
      intro k hk
      simp only [List.singleton_append, List.mem_cons, List.mem_singleton, List.not_mem_nil,
        or_false] at hk
      rcases hk with hk | hk
      · subst hk
        exact ⟨by decide, "ogv", by decide, by decide⟩
      · subst hk
        exact ⟨by decide, "gif", by decide, by decide⟩)
    (by decide)
  refine ⟨d1, d2, hrun, hbase, ?_, hrun2, ?_, ?_⟩
  · rw [hfile, hbase]
    decide
  · rw [hbase2, hbase]
  · rw [hfile2, hbase]
    decide

/-! ## Indexing the encoder list -/

/-- C9 fails on the code: with no encoder plugin discovered the encoder selector is empty
and its current index is -1; `encoderFilter()` and `selectRenderType(-1)` pass the tests
`index < size()` and `!(index >= size())` and subscript `m_renderFilters` at -1, and so
does the constructor through `selectRenderType(currentIndex())`. -/
theorem encoder_index_minus_one_subscripts_list :
    noEncoderDialog.m_renderFilters.length = 0 ∧
    noEncoderDialog.m_page.cmbRenderType.currentIndex = -1 ∧
    noEncoderDialog.encoderFilter = Except.error Fault.indexOutOfRange ∧
    noEncoderDialog.selectRenderType demoHost (-1) = Except.error Fault.indexOutOfRange ∧
    DlgAnimationRenderer.construct noEncoderHost ⟨[]⟩ demoPage =
      Except.error Fault.indexOutOfRange :=
  ⟨rfl, rfl, rfl, rfl, rfl⟩

/-! ## Encoder discovery -/

theorem scanMime_unloadable (h : Host) (loader : QPluginLoader)
    (acc : List (Option KisImportExportFilter) × QComboBox) (mime : String)
    (hload : loadableFilter loader = none) :
    DlgAnimationRenderer.scanMime h loader acc mime = acc := by
  unfold loadableFilter at hload
  unfold DlgAnimationRenderer.scanMime
  cases hf : loader.rootFactory with
  | none => rfl
  | some factory =>
    simp only [hf] at hload ⊢
    cases hc : factory.create with
    | none => rfl
    | some obj =>
      simp only [hc] at hload ⊢
      cases hi : obj.inheritsFilter with
      | false => simp
      | true => simp [hi] at hload

theorem scanMime_loadable (h : Host) (loader : QPluginLoader)
    (acc : List (Option KisImportExportFilter) × QComboBox) (mime : String)
    (f : KisImportExportFilter) (hload : loadableFilter loader = some f) :
    (DlgAnimationRenderer.scanMime h loader acc mime).1 = acc.1 ++ [some f] ∧
    (DlgAnimationRenderer.scanMime h loader acc mime).2.items.map Prod.snd =
      acc.2.items.map Prod.snd ++ [mime] := by
  unfold loadableFilter at hload
  unfold DlgAnimationRenderer.scanMime
  cases hf : loader.rootFactory with
  | none => simp [hf] at hload
  | some factory =>
    simp only [hf] at hload ⊢
    cases hc : factory.create with
    | none => simp [hc] at hload
    | some obj =>
      simp only [hc] at hload ⊢
      cases hi : obj.inheritsFilter with
      | false => simp [hi] at hload
      | true =>
        simp only [hi, if_true] at hload
        have hfo : obj.filter = f := Option.some.inj hload
        simp [QComboBox.addItem, hfo]

theorem scanLoader_unloadable (h : Host) (loader : QPluginLoader)
    (acc : List (Option KisImportExportFilter) × QComboBox)
    (hload : loadableFilter loader = none) :
    DlgAnimationRenderer.scanLoader h acc loader = acc := by
  unfold DlgAnimationRenderer.scanLoader
  generalize DlgAnimationRenderer.advertisedMimes loader = mimes
  induction mimes with
  | nil => rfl
  | cons mime rest ih =>
    rw [List.foldl_cons, scanMime_unloadable h loader acc mime hload]
    exact ih

theorem foldl_scanMime_loadable (h : Host) (loader : QPluginLoader) (f : KisImportExportFilter)
    (hload : loadableFilter loader = some f) (mimes : List String) :
    ∀ acc : List (Option KisImportExportFilter) × QComboBox,
      (mimes.foldl (DlgAnimationRenderer.scanMime h loader) acc).1 =
        acc.1 ++ mimes.map (fun _ => some f) ∧
      (mimes.foldl (DlgAnimationRenderer.scanMime h loader) acc).2.items.map Prod.snd =
        acc.2.items.map Prod.snd ++ mimes := by
  induction mimes with
  | nil => intro acc; simp
  | cons mime rest ih =>
    intro acc
    obtain ⟨h1, h2⟩ := scanMime_loadable h loader acc mime f hload
    obtain ⟨r1, r2⟩ := ih (DlgAnimationRenderer.scanMime h loader acc mime)
    rw [List.foldl_cons]
    refine ⟨?_, ?_⟩
    · rw [r1, h1]; simp
    · rw [r2, h2]; simp

/-- The scan adds to the filter list and to the selector what `expectedEncoders` lists. -/
theorem foldl_scanLoader_expected (h : Host) (loaders : List QPluginLoader) :
    ∀ acc : List (Option KisImportExportFilter) × QComboBox,
      (loaders.foldl (DlgAnimationRenderer.scanLoader h) acc).1 =
        acc.1 ++ (expectedEncoders loaders).map (fun e => some e.1) ∧
      (loaders.foldl (DlgAnimationRenderer.scanLoader h) acc).2.items.map Prod.snd =
        acc.2.items.map Prod.snd ++ (expectedEncoders loaders).map Prod.snd := by
  induction loaders with
  | nil => intro acc; simp [expectedEncoders]
  | cons loader rest ih =>
    intro acc
    rw [List.foldl_cons]
    obtain ⟨r1, r2⟩ := ih (DlgAnimationRenderer.scanLoader h acc loader)
    cases hload : loadableFilter loader with
    | none =>
      rw [scanLoader_unloadable h loader acc hload] at r1 r2 ⊢
      simp only [expectedEncoders, hload, List.nil_append]
      exact ⟨r1, r2⟩
    | some f =>
      obtain ⟨s1, s2⟩ := foldl_scanMime_loadable h loader f hload (DlgAnimationRenderer.advertisedMimes loader) acc
      have e1 : (DlgAnimationRenderer.scanLoader h acc loader).1 =
          acc.1 ++ (DlgAnimationRenderer.advertisedMimes loader).map (fun _ => some f) := s1
      have e2 : (DlgAnimationRenderer.scanLoader h acc loader).2.items.map Prod.snd =
          acc.2.items.map Prod.snd ++ DlgAnimationRenderer.advertisedMimes loader := s2
      simp only [expectedEncoders, hload]
      refine ⟨?_, ?_⟩
      · rw [r1, e1]; simp [Function.comp_def]
      · rw [r2, e2]; simp [Function.comp_def]

theorem expectedEncoders_skip (pre post : List QPluginLoader) (bad : QPluginLoader)
    (hbad : loadableFilter bad = none) :
    expectedEncoders (pre ++ bad :: post) = expectedEncoders (pre ++ post) := by
  induction pre with
  | nil => simp [expectedEncoders, hbad]
  | cons loader rest ih => simp [expectedEncoders, ih]

/-! ## What the slots leave alone -/

theorem selectRenderType_frame (h : Host) (d d1 : DlgAnimationRenderer) (index : Int)
    (hrun : d.selectRenderType h index = Except.ok d1) :
    d1.m_image = d.m_image ∧ d1.m_renderFilters = d.m_renderFilters ∧
    d1.m_frameExportConfigWidget = d.m_frameExportConfigWidget ∧
    d1.m_page = { d.m_page with videoFilename := d1.m_page.videoFilename } := by
  unfold DlgAnimationRenderer.selectRenderType at hrun
  by_cases hc : d.m_page.videoFilename ≠ "" ∧
      completeBaseName d.m_page.videoFilename ≠ d.m_defaultFileName
  · simp only [if_pos hc] at hrun
    split at hrun
    · cases hrun
      exact ⟨rfl, rfl, rfl, rfl⟩
    · split at hrun
      · cases hrun
      · split at hrun
        · cases hrun
        · split at hrun <;> cases hrun <;> exact ⟨rfl, rfl, rfl, rfl⟩
  · simp only [if_neg hc] at hrun
    split at hrun
    · cases hrun
      exact ⟨rfl, rfl, rfl, rfl⟩
    · split at hrun
      · cases hrun
      · split at hrun
        · cases hrun
        · split at hrun <;> cases hrun <;> exact ⟨rfl, rfl, rfl, rfl⟩

theorem sequenceMimeTypeSelected_frame (h : Host) (d : DlgAnimationRenderer) (index : Int) :
    d.sequenceMimeTypeSelected h index =
      { d with m_frameExportConfigWidget :=
          (d.sequenceMimeTypeSelected h index).m_frameExportConfigWidget } := by
  unfold DlgAnimationRenderer.sequenceMimeTypeSelected
  dsimp only
  split <;> rfl

theorem grpRenderSetChecked_frame (d : DlgAnimationRenderer) (b : Bool) :
    d.grpRenderSetChecked b =
      { d with m_page :=
          { d.m_page with
            grpRender := b
            cmbMimetype := (d.grpRenderSetChecked b).m_page.cmbMimetype } } := by
  unfold DlgAnimationRenderer.grpRenderSetChecked
  by_cases hb : b ≠ d.m_page.grpRender
  · rw [if_pos hb]
    rfl
  · rw [if_neg hb]
    have hbe : b = d.m_page.grpRender := not_not.mp hb
    rw [hbe]

/-- The fields of a freshly constructed dialog. -/
theorem construct_fields (h : Host) (cfg : KisConfig) (ui : WdgAnimaterionRenderer)
    (d : DlgAnimationRenderer) (hc : DlgAnimationRenderer.construct h cfg ui = Except.ok d) :
    d.m_image = h.image ∧
    d.m_renderFilters = (DlgAnimationRenderer.scanPlugins h ([], ui.cmbRenderType)).1 ∧
    d.m_page.cmbRenderType = (DlgAnimationRenderer.scanPlugins h ([], ui.cmbRenderType)).2 ∧
    d.m_page.intStart =
      ((ui.intStart.setMinimum h.image.fullClipRange.start).setMaximum
        h.image.fullClipRange.stop).setValue h.image.playbackRange.start ∧
    d.m_page.intEnd =
      ((ui.intEnd.setMinimum h.image.fullClipRange.start).setMaximum
        h.image.fullClipRange.stop).setValue h.image.playbackRange.stop ∧
    d.m_page.sequenceStart = ui.sequenceStart ∧
    d.m_page.dirRequester =
      cfg.readEntryString "last_sequence_export_location" h.picturesLocation ∧
    d.m_page.ffmpegLocation = cfg.customFFMpegPath ∧
    d.m_page.grpRender = cfg.readEntryBool "render_animation" false := by
  unfold DlgAnimationRenderer.construct at hc
  simp only [] at hc
  split at hc
  · cases hc
  · rename_i d1 hsel
    obtain ⟨f1, f2, f3, f4⟩ := selectRenderType_frame _ _ _ _ hsel
    have hd := Except.ok.inj hc
    rw [grpRenderSetChecked_frame, sequenceMimeTypeSelected_frame] at hd
    subst hd
    dsimp only
    refine ⟨f1, f2, ?_, ?_, ?_, ?_, ?_, ?_, ?_⟩
    · have e := congrArg WdgAnimaterionRenderer.cmbRenderType f4
      exact e
    · have e := congrArg WdgAnimaterionRenderer.intStart f4
      exact e
    · have e := congrArg WdgAnimaterionRenderer.intEnd f4
      exact e
    · have e := congrArg WdgAnimaterionRenderer.sequenceStart f4
      exact e
    · have e := congrArg WdgAnimaterionRenderer.dirRequester f4
      exact e
    · rfl
    · rfl

/-- C8: starting from the empty filter list and an empty encoder selector, the scan leaves
`m_renderFilters` and the selector with the same number of entries; both are what
`expectedEncoders` lists, so entry `i` of the selector carries the mime type for which
filter `i` was instantiated, one entry per advertised mime type of each loadable plugin
in scan order; a plugin whose factory or filter cannot be instantiated contributes to
neither and the plugins after it are still scanned; a dialog the constructor returns
holds exactly the scanned list and selector. -/
theorem scanPlugins_aligned (h : Host) (c0 : QComboBox) (hempty : c0.items = []) :
    (DlgAnimationRenderer.scanPlugins h ([], c0)).1.length =
      (DlgAnimationRenderer.scanPlugins h ([], c0)).2.items.length ∧
    (DlgAnimationRenderer.scanPlugins h ([], c0)).1 =
      (expectedEncoders h.animationExporters).map (fun e => some e.1) ∧
    (DlgAnimationRenderer.scanPlugins h ([], c0)).2.items.map Prod.snd =
      (expectedEncoders h.animationExporters).map Prod.snd ∧
    (∀ (i : Nat) (e : KisImportExportFilter × String),
      (expectedEncoders h.animationExporters)[i]? = some e →
      (DlgAnimationRenderer.scanPlugins h ([], c0)).1[i]? = some (some e.1) ∧
      (DlgAnimationRenderer.scanPlugins h ([], c0)).2.itemData (i : Int) = QVariant.ofString e.2) ∧
    (∀ (pre post : List QPluginLoader) (bad : QPluginLoader),
      h.animationExporters = pre ++ bad :: post → loadableFilter bad = none →
      (DlgAnimationRenderer.scanPlugins h ([], c0)).1 =
        (expectedEncoders (pre ++ post)).map (fun e => some e.1) ∧
      (DlgAnimationRenderer.scanPlugins h ([], c0)).2.items.map Prod.snd =
        (expectedEncoders (pre ++ post)).map Prod.snd) ∧
    (∀ (cfg : KisConfig) (ui : WdgAnimaterionRenderer) (d : DlgAnimationRenderer),
      ui.cmbRenderType = c0 → DlgAnimationRenderer.construct h cfg ui = Except.ok d →
      d.m_renderFilters = (DlgAnimationRenderer.scanPlugins h ([], c0)).1 ∧
      d.m_page.cmbRenderType = (DlgAnimationRenderer.scanPlugins h ([], c0)).2) ∧
    (∀ (d : DlgAnimationRenderer) (i : Nat) (e : KisImportExportFilter × String),
      d.m_renderFilters = (DlgAnimationRenderer.scanPlugins h ([], c0)).1 →
      d.m_page.cmbRenderType.currentIndex = (i : Int) →
      (expectedEncoders h.animationExporters)[i]? = some e →
      d.encoderFilter = Except.ok (some e.1)) := by
  obtain ⟨r1, r2⟩ := foldl_scanLoader_expected h h.animationExporters ([], c0)
  have e1 : (DlgAnimationRenderer.scanPlugins h ([], c0)).1 =
      (expectedEncoders h.animationExporters).map (fun e => some e.1) := by
    unfold DlgAnimationRenderer.scanPlugins
    rw [r1]
    rfl
  have e2 : (DlgAnimationRenderer.scanPlugins h ([], c0)).2.items.map Prod.snd =
      (expectedEncoders h.animationExporters).map Prod.snd := by
    unfold DlgAnimationRenderer.scanPlugins
    rw [r2, hempty]
    rfl
  refine ⟨?_, e1, e2, ?_, ?_, ?_, ?_⟩
  · have hlen := congrArg List.length e2
    rw [List.length_map, List.length_map] at hlen
    rw [e1, List.length_map, hlen]
  · intro i e hget
    refine ⟨?_, ?_⟩
    · rw [e1, List.getElem?_map, hget]
      rfl
    · have hm : ((DlgAnimationRenderer.scanPlugins h ([], c0)).2.items.map Prod.snd)[i]? =
          some e.2 := by
        rw [e2, List.getElem?_map, hget]
        rfl
      rw [List.getElem?_map] at hm
      cases hit : (DlgAnimationRenderer.scanPlugins h ([], c0)).2.items[i]? with
      | none => rw [hit] at hm; cases hm
      | some it =>
        rw [hit] at hm
        have hsnd : it.2 = e.2 := Option.some.inj hm
        rw [QComboBox.itemData_natCast _ i it hit, hsnd]
  · intro pre post bad hlist hbad
    rw [e1, e2, hlist, expectedEncoders_skip pre post bad hbad]
    exact ⟨rfl, rfl⟩
  · intro cfg ui d hui hc
    obtain ⟨_, f2, f3, _⟩ := construct_fields h cfg ui d hc
    rw [hui] at f2 f3
    exact ⟨f2, f3⟩
  · intro d i e hfilters hcur hget
    have hfi : d.m_renderFilters[i]? = some (some e.1) := by
      rw [hfilters, e1, List.getElem?_map, hget]
      rfl
    obtain ⟨hi, hval⟩ := List.getElem?_eq_some_iff.mp hfi
    have hlt : (i : Int) < (d.m_renderFilters.length : Int) := by omega
    unfold DlgAnimationRenderer.encoderFilter
    rw [hcur, if_pos hlt, qlistAt_natCast _ i hi, hval]

/-- C8 at a concrete host: one plugin advertising two formats gives two filters and two
selector entries. -/
theorem scanPlugins_aligned_witness :
    (DlgAnimationRenderer.scanPlugins demoHost ([], ⟨[], -1, true⟩)).1.length =
      (DlgAnimationRenderer.scanPlugins demoHost ([], ⟨[], -1, true⟩)).2.items.length ∧
    (DlgAnimationRenderer.scanPlugins demoHost ([], ⟨[], -1, true⟩)).2.items.map Prod.snd =
      ["video/ogg", "image/gif"] :=
  ⟨(scanPlugins_aligned demoHost ⟨[], -1, true⟩ rfl).1,
    (scanPlugins_aligned demoHost ⟨[], -1, true⟩ rfl).2.2.1.trans (by decide)⟩

/-! ## The frame range -/

theorem QSpinBox.bound_mem (s : QSpinBox) (v : Int) (hr : s.minimum ≤ s.maximum) :
    s.minimum ≤ s.bound v ∧ s.bound v ≤ s.maximum := by
  unfold QSpinBox.bound
  dsimp only
  split_ifs <;> omega

theorem QSpinBox.bound_of_mem (s : QSpinBox) (v : Int) (hlo : s.minimum ≤ v)
    (hhi : v ≤ s.maximum) : s.bound v = v := by
  unfold QSpinBox.bound
  dsimp only
  split_ifs <;> omega

theorem QSpinBox.setValue_range (s : QSpinBox) (v : Int) :
    (s.setValue v).minimum = s.minimum ∧ (s.setValue v).maximum = s.maximum :=
  ⟨rfl, rfl⟩

theorem QSpinBox.setValue_inRange (s : QSpinBox) (v : Int) (hr : s.minimum ≤ s.maximum) :
    (s.setValue v).InRange :=
  QSpinBox.bound_mem s v hr

theorem QSpinBox.setMinimum_setMaximum_range (s : QSpinBox) (lo hi : Int) (hr : lo ≤ hi) :
    ((s.setMinimum lo).setMaximum hi).minimum = lo ∧
    ((s.setMinimum lo).setMaximum hi).maximum = hi := by
  unfold QSpinBox.setMaximum QSpinBox.setMinimum QSpinBox.setRange
  dsimp only
  refine ⟨?_, ?_⟩ <;> split_ifs <;> omega

theorem setSequenceConfiguration_fields (h : Host) (d : DlgAnimationRenderer)
    (c : KisPropertiesConfiguration) :
    (d.setSequenceConfiguration h c).m_image = d.m_image ∧
    (d.setSequenceConfiguration h c).m_page.txtBasename = c.getString "basename" "frame" ∧
    (d.setSequenceConfiguration h c).m_page.dirRequester =
      c.getString "directory" h.picturesLocation ∧
    (d.setSequenceConfiguration h c).m_page.intStart =
      d.m_page.intStart.setValue (c.getInt "first_frame" d.m_image.playbackRange.start) ∧
    (d.setSequenceConfiguration h c).m_page.intEnd =
      d.m_page.intEnd.setValue (c.getInt "last_frame" d.m_image.playbackRange.stop) ∧
    (d.setSequenceConfiguration h c).m_page.sequenceStart =
      d.m_page.sequenceStart.setValue (c.getInt "sequence_start" d.m_image.playbackRange.start) ∧
    (d.setSequenceConfiguration h c).m_page.cmbMimetype =
      (match firstIndexOfData d.m_page.cmbMimetype (c.getString "mimetype" "") with
        | some i => d.m_page.cmbMimetype.setCurrentIndex (i : Int)
        | none => d.m_page.cmbMimetype) := by
  unfold DlgAnimationRenderer.setSequenceConfiguration
  dsimp only
  cases hfind : firstIndexOfData d.m_page.cmbMimetype (c.getString "mimetype" "") with
  | none => exact ⟨rfl, rfl, rfl, rfl, rfl, rfl, rfl⟩
  | some i =>
    dsimp only
    rw [sequenceMimeTypeSelected_frame]
    exact ⟨rfl, rfl, rfl, rfl, rfl, rfl, rfl⟩

/-- In every reachable state the two frame fields range over the full clip range and hold
a value inside it. -/
theorem frameRangeReachable_invariant (h : Host) (cfg : KisConfig) (ui : WdgAnimaterionRenderer)
    (d : DlgAnimationRenderer)
    (hclip : h.image.fullClipRange.start ≤ h.image.fullClipRange.stop)
    (hr : FrameRangeReachable h cfg ui d) :
    d.m_image = h.image ∧ FrameFieldsSpanClip d ∧
    d.m_page.intStart.InRange ∧ d.m_page.intEnd.InRange := by
  induction hr with
  | constructed d hc =>
    obtain ⟨f1, _, _, f4, f5, _⟩ := construct_fields h cfg ui d hc
    obtain ⟨a1, a2⟩ := QSpinBox.setMinimum_setMaximum_range ui.intStart _ _ hclip
    obtain ⟨b1, b2⟩ := QSpinBox.setMinimum_setMaximum_range ui.intEnd _ _ hclip
    refine ⟨f1, ?_, ?_, ?_⟩
    · unfold FrameFieldsSpanClip
      rw [f1, f4, f5]
      exact ⟨a1, a2, b1, b2⟩
    · rw [f4]
      exact QSpinBox.setValue_inRange
        ((ui.intStart.setMinimum h.image.fullClipRange.start).setMaximum h.image.fullClipRange.stop)
        _ (by rw [a1, a2]; exact hclip)
    · rw [f5]
      exact QSpinBox.setValue_inRange
        ((ui.intEnd.setMinimum h.image.fullClipRange.start).setMaximum h.image.fullClipRange.stop)
        _ (by rw [b1, b2]; exact hclip)
  | startEdited d v _ ih =>
    obtain ⟨i1, ⟨s1, s2, s3, s4⟩, _, i4⟩ := ih
    refine ⟨i1, ⟨s1, s2, s3, s4⟩, ?_, i4⟩
    exact QSpinBox.setValue_inRange d.m_page.intStart v (by rw [s1, s2, i1]; exact hclip)
  | endEdited d v _ ih =>
    obtain ⟨i1, ⟨s1, s2, s3, s4⟩, i3, _⟩ := ih
    refine ⟨i1, ⟨s1, s2, s3, s4⟩, i3, ?_⟩
    exact QSpinBox.setValue_inRange d.m_page.intEnd v (by rw [s3, s4, i1]; exact hclip)
  | configured d c _ ih =>
    obtain ⟨i1, ⟨s1, s2, s3, s4⟩, _, _⟩ := ih
    obtain ⟨g1, _, _, g4, g5, _⟩ := setSequenceConfiguration_fields h d c
    refine ⟨g1.trans i1, ?_, ?_, ?_⟩
    · unfold FrameFieldsSpanClip
      rw [g1, g4, g5]
      exact ⟨s1, s2, s3, s4⟩
    · rw [g4]
      exact QSpinBox.setValue_inRange d.m_page.intStart _ (by rw [s1, s2, i1]; exact hclip)
    · rw [g5]
      exact QSpinBox.setValue_inRange d.m_page.intEnd _ (by rw [s3, s4, i1]; exact hclip)

theorem construct_demo :
    DlgAnimationRenderer.construct demoHost ⟨[]⟩ demoPage = Except.ok constructedDemo :=
  rfl

/-- C7, as the code has it: for a document whose full clip range is a range
(`start <= end`), in every dialog state reachable from construction by edits of the start
and end frame fields and calls of `setSequenceConfiguration`, the start frame and the
end frame both lie within the full clip range, and so do `first_frame` and `last_frame`
of the configuration `getSequenceConfiguration` returns.  Nothing orders the start frame
and the end frame. -/
theorem frame_fields_within_clip_range (h : Host) (cfg : KisConfig)
    (ui : WdgAnimaterionRenderer) (d : DlgAnimationRenderer)
    (hclip : h.image.fullClipRange.start ≤ h.image.fullClipRange.stop)
    (hr : FrameRangeReachable h cfg ui d) :
    (h.image.fullClipRange.start ≤ d.m_page.intStart.value ∧
      d.m_page.intStart.value ≤ h.image.fullClipRange.stop) ∧
    (h.image.fullClipRange.start ≤ d.m_page.intEnd.value ∧
      d.m_page.intEnd.value ≤ h.image.fullClipRange.stop) ∧
    ∃ c, d.getSequenceConfiguration = some c ∧
      (h.image.fullClipRange.start ≤ c.getInt "first_frame" 0 ∧
        c.getInt "first_frame" 0 ≤ h.image.fullClipRange.stop) ∧
      (h.image.fullClipRange.start ≤ c.getInt "last_frame" 0 ∧
        c.getInt "last_frame" 0 ≤ h.image.fullClipRange.stop) := by
  obtain ⟨i1, ⟨s1, s2, s3, s4⟩, ⟨a1, a2⟩, ⟨b1, b2⟩⟩ :=
    frameRangeReachable_invariant h cfg ui d hclip hr
  rw [s1, i1] at a1
  rw [s2, i1] at a2
  rw [s3, i1] at b1
  rw [s4, i1] at b2
  obtain ⟨c, hc, hfirst, hlast, _⟩ := getSequenceConfiguration_reads_form d
  refine ⟨⟨a1, a2⟩, ⟨b1, b2⟩, c, hc, ?_, ?_⟩
  · rw [hfirst]
    exact ⟨a1, a2⟩
  · rw [hlast]
    exact ⟨b1, b2⟩

/-- C7 at a concrete dialog: typing 500 into the start frame field of the dialog built for
a clip of frames 0 to 100 leaves the start frame within 0 and 100. -/
theorem frame_fields_within_clip_range_witness :
    (0 ≤ (constructedDemo.editStartFrame 500).m_page.intStart.value ∧
      (constructedDemo.editStartFrame 500).m_page.intStart.value ≤ 100) :=
  (frame_fields_within_clip_range demoHost ⟨[]⟩ demoPage (constructedDemo.editStartFrame 500)
    (by decide)
    (FrameRangeReachable.startEdited _ 500
      (FrameRangeReachable.constructed _ construct_demo))).1

/-- C7 fails as first stated: after typing 50 into the start frame field and 10 into the
end frame field the start frame is above the end frame, in the form and in the
configuration returned. -/
theorem frame_fields_start_above_end :
    FrameRangeReachable demoHost ⟨[]⟩ demoPage
      ((constructedDemo.editStartFrame 50).editEndFrame 10) ∧
    ((constructedDemo.editStartFrame 50).editEndFrame 10).m_page.intStart.value = 50 ∧
    ((constructedDemo.editStartFrame 50).editEndFrame 10).m_page.intEnd.value = 10 ∧
    (((constructedDemo.editStartFrame 50).editEndFrame 10).getSequenceConfiguration.map
      (fun c => (c.getInt "first_frame" 0, c.getInt "last_frame" 0))) = some (50, 10) :=
  ⟨FrameRangeReachable.endEdited _ 10
      (FrameRangeReachable.startEdited _ 50
        (FrameRangeReachable.constructed _ construct_demo)),
    by decide, by decide, by decide⟩

/-! ## Setting and reading back the sequence configuration -/

theorem KisPropertiesConfiguration.getString_of_string (c : KisPropertiesConfiguration)
    (name value dflt : String) (hp : c.getProperty name = QVariant.ofString value) :
    c.getString name dflt = value := by
  unfold KisPropertiesConfiguration.getString
  rw [hp]
  rfl

theorem KisPropertiesConfiguration.getInt_of_int (c : KisPropertiesConfiguration)
    (name : String) (value dflt : Int) (hp : c.getProperty name = QVariant.ofInt value) :
    c.getInt name dflt = value := by
  unfold KisPropertiesConfiguration.getInt
  rw [hp]
  rfl

/-- The search-and-select loop of `setSequenceConfiguration` leaves `data` as the current
data when some item carries it or when it was the current data already. -/
theorem currentData_after_search (c : QComboBox) (data : String)
    (hcur : c.currentData.toString = data ∨ ∃ it ∈ c.items, it.2 = data) :
    (match firstIndexOfData c data with
      | some i => c.setCurrentIndex (i : Int)
      | none => c).currentData.toString = data := by
  cases hfind : firstIndexOfData c data with
  | none =>
    rcases hcur with hcur | ⟨it, hit, hdata⟩
    · exact hcur
    · exact absurd hdata (firstIndexOfData_none c data hfind it hit)
  | some i =>
    dsimp only
    rw [currentData_after_select c data i hfind]
    rfl

/-- C10: for a bag that defines the six properties, with `first_frame` and `last_frame`
inside the full clip range that the frame fields span, `sequence_start` inside the range
of the sequence-start field and `mimetype` attached to some entry of the still-image
format selector, `getSequenceConfiguration()` right after `setSequenceConfiguration(cfg)`
returns the same six values; and in a dialog whose spin boxes hold values inside their
ranges, `setSequenceConfiguration(getSequenceConfiguration())` leaves the six form values
unchanged. -/
theorem sequenceConfiguration_round_trip (h : Host) (d : DlgAnimationRenderer) :
    (∀ (c : KisPropertiesConfiguration) (basename directory mimetype : String)
        (first last seqStart : Int),
      c.getProperty "basename" = QVariant.ofString basename →
      c.getProperty "directory" = QVariant.ofString directory →
      c.getProperty "first_frame" = QVariant.ofInt first →
      c.getProperty "last_frame" = QVariant.ofInt last →
      c.getProperty "sequence_start" = QVariant.ofInt seqStart →
      c.getProperty "mimetype" = QVariant.ofString mimetype →
      FrameFieldsSpanClip d →
      (d.m_image.fullClipRange.start ≤ first ∧ first ≤ d.m_image.fullClipRange.stop) →
      (d.m_image.fullClipRange.start ≤ last ∧ last ≤ d.m_image.fullClipRange.stop) →
      (d.m_page.sequenceStart.minimum ≤ seqStart ∧ seqStart ≤ d.m_page.sequenceStart.maximum) →
      (∃ it ∈ d.m_page.cmbMimetype.items, it.2 = mimetype) →
      ∃ c1, (d.setSequenceConfiguration h c).getSequenceConfiguration = some c1 ∧
        c1.getProperty "basename" = QVariant.ofString basename ∧
        c1.getProperty "directory" = QVariant.ofString directory ∧
        c1.getProperty "first_frame" = QVariant.ofInt first ∧
        c1.getProperty "last_frame" = QVariant.ofInt last ∧
        c1.getProperty "sequence_start" = QVariant.ofInt seqStart ∧
        c1.getProperty "mimetype" = QVariant.ofString mimetype) ∧
    (d.m_page.intStart.InRange → d.m_page.intEnd.InRange → d.m_page.sequenceStart.InRange →
      ∃ c0, d.getSequenceConfiguration = some c0 ∧
        (d.setSequenceConfiguration h c0).m_page.txtBasename = d.m_page.txtBasename ∧
        (d.setSequenceConfiguration h c0).m_page.dirRequester = d.m_page.dirRequester ∧
        (d.setSequenceConfiguration h c0).m_page.intStart.value = d.m_page.intStart.value ∧
        (d.setSequenceConfiguration h c0).m_page.intEnd.value = d.m_page.intEnd.value ∧
        (d.setSequenceConfiguration h c0).m_page.sequenceStart.value =
          d.m_page.sequenceStart.value ∧
        (d.setSequenceConfiguration h c0).m_page.cmbMimetype.currentData.toString =
          d.m_page.cmbMimetype.currentData.toString) := by
  refine ⟨?_, ?_⟩
  · intro c basename directory mimetype first last seqStart hb hdir hf hl hs hm hspan
      hfirst hlast hseq hmime
    obtain ⟨s1, s2, s3, s4⟩ := hspan
    obtain ⟨_, g2, g3, g4, g5, g6, g7⟩ := setSequenceConfiguration_fields h d c
    obtain ⟨c1, hc1, p1, p2, p3, p4, p5, p6⟩ :=
      getSequenceConfiguration_properties (d.setSequenceConfiguration h c)
    refine ⟨c1, hc1, ?_, ?_, ?_, ?_, ?_, ?_⟩
    · rw [p1, g2, KisPropertiesConfiguration.getString_of_string c _ _ _ hb]
    · rw [p2, g3, KisPropertiesConfiguration.getString_of_string c _ _ _ hdir]
    · rw [p3, g4, KisPropertiesConfiguration.getInt_of_int c _ _ _ hf]
      exact congrArg QVariant.ofInt
        (QSpinBox.bound_of_mem _ _ (by rw [s1]; exact hfirst.1) (by rw [s2]; exact hfirst.2))
    · rw [p4, g5, KisPropertiesConfiguration.getInt_of_int c _ _ _ hl]
      exact congrArg QVariant.ofInt
        (QSpinBox.bound_of_mem _ _ (by rw [s3]; exact hlast.1) (by rw [s4]; exact hlast.2))
    · rw [p5, g6, KisPropertiesConfiguration.getInt_of_int c _ _ _ hs]
      exact congrArg QVariant.ofInt (QSpinBox.bound_of_mem _ _ hseq.1 hseq.2)
    · rw [p6, g7, KisPropertiesConfiguration.getString_of_string c _ _ _ hm,
        currentData_after_search _ _ (Or.inr hmime)]
  · intro hstart hend hseq
    obtain ⟨c0, hc0, p1, p2, p3, p4, p5, p6⟩ := getSequenceConfiguration_properties d
    obtain ⟨_, g2, g3, g4, g5, g6, g7⟩ := setSequenceConfiguration_fields h d c0
    refine ⟨c0, hc0, ?_, ?_, ?_, ?_, ?_, ?_⟩
    · rw [g2, KisPropertiesConfiguration.getString_of_string c0 _ _ _ p1]
    · rw [g3, KisPropertiesConfiguration.getString_of_string c0 _ _ _ p2]
    · rw [g4, KisPropertiesConfiguration.getInt_of_int c0 _ _ _ p3]
      exact QSpinBox.bound_of_mem _ _ hstart.1 hstart.2
    · rw [g5, KisPropertiesConfiguration.getInt_of_int c0 _ _ _ p4]
      exact QSpinBox.bound_of_mem _ _ hend.1 hend.2
    · rw [g6, KisPropertiesConfiguration.getInt_of_int c0 _ _ _ p5]
      exact QSpinBox.bound_of_mem _ _ hseq.1 hseq.2
    · rw [g7, KisPropertiesConfiguration.getString_of_string c0 _ _ _ p6]
      exact currentData_after_search _ _ (Or.inl rfl)

/-- C10 at a concrete dialog and bag: frames 5 to 50 of a clip of frames 0 to 100, PNG
among the formats. -/
theorem sequenceConfiguration_round_trip_witness :
    ∃ c1, (demoDialog.setSequenceConfiguration demoHost
        demoSequenceConfiguration).getSequenceConfiguration = some c1 ∧
      c1.getProperty "basename" = QVariant.ofString "shot" ∧
      c1.getProperty "directory" = QVariant.ofString "/tmp/out" ∧
      c1.getProperty "first_frame" = QVariant.ofInt 5 ∧
      c1.getProperty "last_frame" = QVariant.ofInt 50 ∧
      c1.getProperty "sequence_start" = QVariant.ofInt 7 ∧
      c1.getProperty "mimetype" = QVariant.ofString "image/png" :=
  (sequenceConfiguration_round_trip demoHost demoDialog).1 demoSequenceConfiguration
    "shot" "/tmp/out" "image/png" 5 50 7 (by decide) (by decide) (by decide) (by decide)
    (by decide) (by decide) (by unfold FrameFieldsSpanClip; decide) (by decide) (by decide)
    (by decide) ⟨("image/png", "image/png"), by simp [demoDialog], rfl⟩

/-! ## Teardown and the settings store -/

/-- C6 fails on the code: in the dialog built for `demoHost` the user picks JPEG, whose
export filter offers no configuration widget, so `m_frameExportConfigWidget` is null; the
destructor then calls `setParent(0)` through it (line 154) and the teardown does not
return the settings store. -/
theorem destruct_null_subwidget :
    DlgAnimationRenderer.construct demoHost ⟨[]⟩ demoPage = Except.ok constructedDemo ∧
    (constructedDemo.activateMimetype demoHost 0).m_page.cmbMimetype.currentData =
      QVariant.ofString "image/jpeg" ∧
    (constructedDemo.activateMimetype demoHost 0).m_frameExportConfigWidget = none ∧
    (constructedDemo.activateMimetype demoHost 0).destruct ⟨[]⟩ =
      Except.error Fault.nullDereference :=
  ⟨rfl, rfl, rfl, rfl⟩

/-- When both sub-widgets exist the teardown returns the store with the three entries
written, and a dialog constructed from that store shows the old toggle, directory and
FFmpeg path. -/
theorem settings_restored_after_teardown (h : Host) (cfg : KisConfig)
    (ui : WdgAnimaterionRenderer) (d : DlgAnimationRenderer)
    (hencoder : d.m_encoderConfigWidget ≠ none) (hframe : d.m_frameExportConfigWidget ≠ none) :
    ∃ cfg1, d.destruct cfg = Except.ok cfg1 ∧
      cfg1.readEntryBool "render_animation" false = d.m_page.grpRender ∧
      cfg1.readEntryString "last_sequence_export_location" h.picturesLocation =
        d.m_page.dirRequester ∧
      cfg1.customFFMpegPath = d.m_page.ffmpegLocation ∧
      ∀ d1, DlgAnimationRenderer.construct h cfg1 ui = Except.ok d1 →
        d1.renderToVideo = d.renderToVideo ∧
        d1.m_page.dirRequester = d.m_page.dirRequester ∧
        d1.m_page.ffmpegLocation = d.m_page.ffmpegLocation := by
  have hrun : d.destruct cfg = Except.ok
      (((cfg.writeEntryBool "render_animation" d.m_page.grpRender).writeEntryString
        "last_sequence_export_location" d.m_page.dirRequester).setCustomFFMpegPath
        d.m_page.ffmpegLocation) := by
    unfold DlgAnimationRenderer.destruct
    cases he : d.m_encoderConfigWidget with
    | none => exact absurd he hencoder
    | some _ =>
      cases hf : d.m_frameExportConfigWidget with
      | none => exact absurd hf hframe
      | some _ => rfl
  have r1 : (((cfg.writeEntryBool "render_animation" d.m_page.grpRender).writeEntryString
        "last_sequence_export_location" d.m_page.dirRequester).setCustomFFMpegPath
        d.m_page.ffmpegLocation).readEntryBool "render_animation" false = d.m_page.grpRender := by
    unfold KisConfig.readEntryBool KisConfig.setCustomFFMpegPath KisConfig.writeEntryString
      KisConfig.writeEntryBool
    dsimp only
    rw [QVariantMap.value_insert_other _ _ _ _ (by decide),
      QVariantMap.value_insert_other _ _ _ _ (by decide), QVariantMap.value_insert_self]
    rfl
  have r2 : (((cfg.writeEntryBool "render_animation" d.m_page.grpRender).writeEntryString
        "last_sequence_export_location" d.m_page.dirRequester).setCustomFFMpegPath
        d.m_page.ffmpegLocation).readEntryString "last_sequence_export_location"
        h.picturesLocation = d.m_page.dirRequester := by
    unfold KisConfig.readEntryString KisConfig.setCustomFFMpegPath KisConfig.writeEntryString
      KisConfig.writeEntryBool
    dsimp only
    rw [QVariantMap.value_insert_other _ _ _ _ (by decide), QVariantMap.value_insert_self]
    rfl
  have r3 : (((cfg.writeEntryBool "render_animation" d.m_page.grpRender).writeEntryString
        "last_sequence_export_location" d.m_page.dirRequester).setCustomFFMpegPath
        d.m_page.ffmpegLocation).customFFMpegPath = d.m_page.ffmpegLocation := by
    unfold KisConfig.customFFMpegPath KisConfig.readEntryString KisConfig.setCustomFFMpegPath
      KisConfig.writeEntryString KisConfig.writeEntryBool
    dsimp only
    rw [QVariantMap.value_insert_self]
    rfl
  refine ⟨_, hrun, r1, r2, r3, ?_⟩
  intro d1 hc
  obtain ⟨_, _, _, _, _, _, f7, f8, f9⟩ := construct_fields h _ ui d1 hc
  refine ⟨?_, ?_, ?_⟩
  · unfold DlgAnimationRenderer.renderToVideo
    rw [f9, r1]
  · rw [f7, r2]
  · rw [f8, r3]

/-- C5 fails as first stated.  At the valid encoder index 0 of a dialog whose encoder
format has no known suffix, `selectRenderType(0)` takes `first()` of an empty list (line
268) and suggests no file name; the constructor runs into the same for a plugin without
an `X-KDE-Export` entry.  And with the first suffix `tar.gz`, the user having typed
nothing, selecting encoder 0 and then encoder 1 turns the remembered base name `clip`
into `clip.tar`. -/
theorem selectRenderType_base_name_not_kept :
    (0 < noSuffixDialog.m_renderFilters.length ∧
      noSuffixDialog.selectRenderType demoHost 0 = Except.error Fault.firstOfEmptyList ∧
      DlgAnimationRenderer.construct noSuffixHost ⟨[]⟩ demoPage =
        Except.error Fault.firstOfEmptyList) ∧
    (dottedSuffixDialog.m_defaultFileName = "clip" ∧
      dottedSuffixDialog.m_page.videoFilename = "" ∧
      (dottedSuffixDialog.selectRenderTypes dottedSuffixHost [0]).toOption.map
        (fun d => (d.m_defaultFileName, d.m_page.videoFilename)) =
        some ("clip", "clip.tar.gz") ∧
      (dottedSuffixDialog.selectRenderTypes dottedSuffixHost [0, 1]).toOption.map
        (fun d => (d.m_defaultFileName, d.m_page.videoFilename)) =
        some ("clip.tar", "clip.tar.gif")) :=
  ⟨⟨by decide, rfl, rfl⟩, by decide, by decide, by decide, by decide⟩

end Krita
